import Mathlib

/-!
Verification development for the `lib-router` fleet-routing library.

The definitions below are a shallow embedding of the Rust sources:

* `src/types/location.rs`, `src/types/status.rs`, `src/types/node.rs`  — data model;
* `src/utils/graph.rs` (`build_edges`)                                 — graph builder;
* `src/types/router.rs` (`Router::new`, `find_shortest_path`)          — router;
* `src/utils/router_state.rs`                                          — router state,
  temporal feasibility helpers and `get_possible_flights`.

Numeric conventions. Rust `f32`/`f64` values are modelled as `ℚ` with exact
arithmetic (none of the claims below hinges on floating-point rounding);
`i64`/`i32`/`u32` are modelled as `Int` with the explicit wrap-arounds
(`% 2^32`) written out where Rust performs an `as` cast. Rust `i64` division
truncates towards zero, which is `Int.tdiv`.

Panics (`unwrap`, `expect`, `?`-on-`Result` vs panic) are modelled with
`Option`: a `none` result of an embedded function means the Rust code panics.
Fallible Rust functions returning `Result<T, E>` become `Except String T`
inside that `Option` layer.

External collaborators that are not part of the sources (the RRULE calendar
parser of `crate::schedule`, the `haversine` kernel, the random node
generator, and chrono's timestamp validation) are modelled from the spec as
explicit function parameters or documented predicates; every such definition
carries a doc comment starting with `Modelled from the spec:`.
-/

attribute [local semireducible] Rat.add Rat.mul Rat.sub Rat.inv

/-- Operating status of a node (`src/types/status.rs`). -/
inductive Status where
  | Ok : Status
  | Closed : Status
deriving DecidableEq, Repr

/-- Geographic location (`src/types/location.rs`); the three `OrderedFloat<f32>`
fields are modelled as exact rationals. -/
structure Location where
  longitude : ℚ
  latitude : ℚ
  altitudeMeters : ℚ
deriving DecidableEq, Repr

/-- A graph vertex (`src/types/node.rs`). `forward_to : Option<Box<Node>>`
makes the type recursive, hence an inductive with one constructor. -/
inductive Node where
  | mk (uid : String) (location : Location) (forwardTo : Option Node) (status : Status) : Node

/-- The `uid` field of a `Node`. -/
def Node.uid : Node → String
  | .mk u _ _ _ => u

/-- The `location` field of a `Node`. -/
def Node.location : Node → Location
  | .mk _ l _ _ => l

/-- The `forward_to` field of a `Node`. -/
def Node.forwardTo : Node → Option Node
  | .mk _ _ f _ => f

/-- The `status` field of a `Node`. -/
def Node.status : Node → Status
  | .mk _ _ _ s => s

/-- Modelled from the spec: the sources use `Node` as a `HashMap` key and
compare nodes with `==`/`!=` (`build_edges`, `Router::new`), but the
`PartialEq`/`Hash` impls themselves are not under `src/`.  §4.2 of the spec:
"Equality and hashing of a site are by id (not by pointer)".  This is that
by-id equality. -/
def nodeEq (a b : Node) : Bool := a.uid == b.uid

/-- Modelled from the spec: the by-id `Hash` impl — for any hasher `hsh`, a
node is hashed by feeding it only the `uid`.  §4.2 of the spec. -/
def nodeHashBy (hsh : String → Nat) (n : Node) : Nat := hsh n.uid

/-- Edge builder (`src/utils/graph.rs`, `build_edges`): the nested
`for from in nodes { for to in nodes { .. } }` loops pushing
`(from, to, cost)` whenever `from != to` and the constraint function is
within the constraint. -/
def build_edges (nodes : List Node) (constraint : ℚ)
    (constraintFn costFn : Node → Node → ℚ) : List (Node × Node × ℚ) :=
  nodes.foldl
    (fun edges nfrom =>
      nodes.foldl
        (fun edges nto =>
          if nodeEq nfrom nto = false ∧ constraintFn nfrom nto ≤ constraint then
            edges ++ [(nfrom, nto, costFn nfrom nto)]
          else edges)
        edges)
    []

/-- The router (`src/types/router.rs`): `verts` models the `StableDiGraph`
node list in insertion order (a node's index is its position), `edges` the
originating `Vec<Edge>`, and `gedges` the graph's weighted edges over node
indices, in insertion order. -/
structure Router where
  verts : List Node
  edges : List (Node × Node × ℚ)
  gedges : List (Nat × Nat × ℚ)

/-- One `node_indices.entry(node).or_insert_with(|| graph.add_node(node))`
step: return the index of the node if its uid is already a vertex, otherwise
append it (new index = old vertex count, as in petgraph without removals). -/
def insertVert (verts : List Node) (n : Node) : List Node × Nat :=
  match verts.findIdx? (fun m => nodeEq m n) with
  | some i => (verts, i)
  | none => (verts ++ [n], verts.length)

/-- `Router::new` (`src/types/router.rs`): build the edge list, insert each
edge's endpoints into the vertex map on first sight and record the weighted
edge, then scan the original node slice and add any node not yet present. -/
def Router.new (nodes : List Node) (constraint : ℚ)
    (constraintFn costFn : Node → Node → ℚ) : Router :=
  let edges := build_edges nodes constraint constraintFn costFn
  let st := edges.foldl
    (fun (st : List Node × List (Nat × Nat × ℚ)) e =>
      let p1 := insertVert st.1 e.1
      let p2 := insertVert p1.1 e.2.1
      (p2.1, st.2 ++ [(p1.2, p2.2, e.2.2)]))
    ([], [])
  let verts := nodes.foldl
    (fun vs n => if vs.any (fun m => nodeEq m n) then vs else vs ++ [n]) st.1
  { verts := verts, edges := edges, gedges := st.2 }

/-- `Router::get_node_index`: look a node up in the vertex map (by uid). -/
def Router.getNodeIndex (r : Router) (n : Node) : Option Nat :=
  r.verts.findIdx? (fun m => nodeEq m n)

/-- `Router::get_node_count`. -/
def Router.get_node_count (r : Router) : Nat := r.verts.length

/-- `Router::get_edge_count`. -/
def Router.get_edge_count (r : Router) : Nat := r.gedges.length

/-- The node stored at a graph index (petgraph's node weight lookup, used as
`get_node_by_id(node_idx)` by `get_route` in `src/utils/router_state.rs`). -/
def Router.nodeAt (r : Router) (i : Nat) : Option Node := r.verts.get? i

/-- Path finding algorithm tag (`src/types/router.rs`). -/
inductive Algorithm where
  | Dijkstra : Algorithm
  | AStar : Algorithm

/-- Frontier entries of the search: `(vertex, g-cost, reversed path)`. -/
def succEntries (g : List (Nat × Nat × ℚ)) (u : Nat) (cu : ℚ) (rp : List Nat) :
    List (Nat × ℚ × List Nat) :=
  g.filterMap (fun e => if e.1 = u then some (e.2.1, cu + e.2.2, e.2.1 :: rp) else none)

/-- Remove a frontier entry minimising `g-cost + heuristic` (earliest entry
wins ties), returning it and the remaining entries. -/
def pickMin (h : Nat → ℚ) :
    List (Nat × ℚ × List Nat) → Option ((Nat × ℚ × List Nat) × List (Nat × ℚ × List Nat))
  | [] => none
  | x :: xs =>
    match pickMin h xs with
    | none => some (x, [])
    | some (m, rest) =>
      if x.2.1 + h x.1 ≤ m.2.1 + h m.1 then some (x, xs) else some (m, x :: rest)

/-- Fuel-bounded best-first loop of the search. -/
def astarLoop (g : List (Nat × Nat × ℚ)) (h : Nat → ℚ) (goal : Nat) :
    Nat → List (Nat × ℚ × List Nat) → Option (ℚ × List Nat)
  | 0, _ => none
  | fuel + 1, frontier =>
    match pickMin h frontier with
    | none => none
    | some (x, rest) =>
      if x.1 = goal then some (x.2.1, x.2.2.reverse)
      else astarLoop g h goal fuel (rest ++ succEntries g x.1 x.2.1 x.2.2)

/-- Fuel bound for the search. -/
def astarFuel (g : List (Nat × Nat × ℚ)) : Nat := g.length * g.length + 2

/-- Modelled from the spec: `petgraph::algo::astar` is an external crate and
not part of the sources.  §4.4: run A*; when the goal is reached return
`Some (sum of edge costs along the found path, [v₀, …, vₖ])`, otherwise
`None`.  This is an executable A*-style best-first search over the indexed
edge list; every returned path starts at `s`, follows graph edges, ends at
`goal`, and its cost is the sum of the traversed edge weights. -/
def astar (g : List (Nat × Nat × ℚ)) (h : Nat → ℚ) (s goal : Nat) :
    Option (ℚ × List Nat) :=
  astarLoop g h goal (astarFuel g) [(s, 0, [s])]

/-- `Router::find_shortest_path` (`src/types/router.rs`): if either endpoint
is missing from the vertex map return `(-1.0, [])`; otherwise run the same
A* driver under both `Algorithm` branches with the heuristic defaulting to
the zero function, and default a failed search to `(0.0, [])`. -/
def find_shortest_path (r : Router) (nfrom nto : Node) (algorithm : Algorithm)
    (heuristicFn : Option (Nat → ℚ)) : ℚ × List Nat :=
  match r.getNodeIndex nfrom, r.getNodeIndex nto with
  | some fi, some ti =>
    (match algorithm with
     | .Dijkstra => (astar r.gedges (heuristicFn.getD (fun _ => 0)) fi ti).getD (0, [])
     | .AStar => (astar r.gedges (heuristicFn.getD (fun _ => 0)) fi ti).getD (0, []))
  | _, _ => (-1, [])

/-- A prost `Timestamp`: `seconds : i64`, `nanos : i32`. -/
structure Timestamp where
  seconds : Int
  nanos : Int
deriving DecidableEq, Repr

/-- Modelled from the spec: the parsed RRULE availability descriptor of
`crate::schedule` (§4.5) is not under `src/`; a calendar is abstracted to its
observable behaviour, the `is_available_between` predicate over epoch-second
intervals. -/
structure Calendar where
  avail : Int → Int → Bool

/-- `svc_storage` vehicle data: `{schedule, last_vertiport_id}`, both optional. -/
structure VehicleData where
  schedule : Option String
  lastVertiportId : Option String
deriving DecidableEq, Repr

/-- `svc_storage` vehicle object: `{id, data?}`. -/
structure Vehicle where
  id : String
  data : Option VehicleData
deriving DecidableEq, Repr

/-- The fields of `svc_storage` flight-plan data read by the core. -/
structure FlightPlanData where
  vehicleId : String
  departureVertiportId : Option String
  destinationVertiportId : Option String
  scheduledDeparture : Option Timestamp
  scheduledArrival : Option Timestamp
deriving DecidableEq, Repr

/-- `svc_storage` flight-plan object: `{id, data?}`. -/
structure FlightPlan where
  id : String
  data : Option FlightPlanData
deriving DecidableEq, Repr

/-- `svc_storage` vertiport data: `{latitude, longitude, schedule?}`. -/
structure VertiportData where
  latitude : ℚ
  longitude : ℚ
  schedule : Option String
deriving DecidableEq, Repr

/-- `svc_storage` vertiport object: `{id, data?}`. -/
structure Vertiport where
  id : String
  data : Option VertiportData
deriving DecidableEq, Repr

/-- `time_ranges_overlap` (`src/utils/router_state.rs`): touching ranges do
not overlap. -/
def time_ranges_overlap (start1 end1 start2 end2 : Int) : Bool :=
  start1 < end2 && start2 < end1

/-- Count the elements on which a possibly-panicking predicate holds,
in order; the first panic aborts the whole count (this is Rust's
`iter().filter(..).count()` over closures full of `unwrap`). -/
def countTrueM {α : Type} (f : α → Option Bool) : List α → Option Nat
  | [] => some 0
  | a :: as =>
    match f a with
    | none => none
    | some b =>
      match countTrueM f as with
      | none => none
      | some n => some (if b then n + 1 else n)

/-- `is_vehicle_available` (`src/utils/router_state.rs`): parse the vehicle's
schedule (all the `unwrap`s model as the `Option` layer), check the calendar
over `[date_from, date_from + duration)`, then count conflicting flight plans
of the same vehicle.  `parseCal` is the modelled `Calendar::from_str`. -/
def is_vehicle_available (parseCal : String → Option Calendar) (vehicle : Vehicle)
    (dateFrom : Int) (flightDurationMinutes : Int)
    (existingFlightPlans : List FlightPlan) : Option Bool :=
  match vehicle.data with
  | none => none
  | some vd =>
    match vd.schedule with
    | none => none
    | some s =>
      match parseCal s with
      | none => none
      | some vehicleSchedule =>
        let dateTo := dateFrom + flightDurationMinutes * 60
        if vehicleSchedule.avail dateFrom dateTo = false then some false
        else
          match countTrueM
            (fun fp =>
              match fp.data with
              | none => none
              | some d =>
                if d.vehicleId = vehicle.id then
                  match d.scheduledDeparture with
                  | none => none
                  | some dep =>
                    match d.scheduledArrival with
                    | none => none
                    | some arr =>
                      some (time_ranges_overlap dep.seconds arr.seconds dateFrom dateTo)
                else some false)
            existingFlightPlans with
          | none => none
          | some conflicting => some (conflicting = 0)

/-- `is_vertiport_available` (`src/utils/router_state.rs`): parse the
vertiport's schedule, check the calendar over the block, then count plans at
the same endpoint whose scheduled time falls inside the guard band
`(date_from - block, date_to + block)`.  The role's endpoint id is unwrapped
for every plan; the role's timestamp only for plans whose endpoint matches. -/
def is_vertiport_available (parseCal : String → Option Calendar) (vertiport : Vertiport)
    (dateFrom : Int) (existingFlightPlans : List FlightPlan)
    (isDepartureVertiport : Bool) : Option Bool :=
  match vertiport.data with
  | none => none
  | some vd =>
    match vd.schedule with
    | none => none
    | some s =>
      match parseCal s with
      | none => none
      | some vertiportSchedule =>
        let blockVertiportMinutes : Int := if isDepartureVertiport then 10 else 10
        let dateTo := dateFrom + blockVertiportMinutes * 60
        if vertiportSchedule.avail dateFrom dateTo = false then some false
        else
          match countTrueM
            (fun fp =>
              match fp.data with
              | none => none
              | some d =>
                if isDepartureVertiport then
                  match d.departureVertiportId with
                  | none => none
                  | some depId =>
                    if depId = vertiport.id then
                      match d.scheduledDeparture with
                      | none => none
                      | some dep =>
                        some (decide (dep.seconds > dateFrom - blockVertiportMinutes * 60)
                          && decide (dep.seconds < dateTo + blockVertiportMinutes * 60))
                    else some false
                else
                  match d.destinationVertiportId with
                  | none => none
                  | some dstId =>
                    if dstId = vertiport.id then
                      match d.scheduledArrival with
                      | none => none
                      | some arr =>
                        some (decide (arr.seconds > dateFrom - blockVertiportMinutes * 60)
                          && decide (arr.seconds < dateTo + blockVertiportMinutes * 60))
                    else some false)
            existingFlightPlans with
          | none => none
          | some conflicting => some (conflicting = 0)

/-- Collect, in order, the flight plans a possibly-panicking predicate keeps
(Rust's `iter().filter(..).collect()`). -/
def filterPlansM (f : FlightPlan → Option Bool) : List FlightPlan → Option (List FlightPlan)
  | [] => some []
  | p :: ps =>
    match f p with
    | none => none
    | some b =>
      match filterPlansM f ps with
      | none => none
      | some rest => some (if b then p :: rest else rest)

/-- Scheduled-departure key used to sort a vehicle's plans; every plan
reaching the sort passed the filter (matching vehicle with a present
departure), so the default `0` of the total lookup is never consulted. -/
def depSecondsKey (fp : FlightPlan) : Int :=
  ((fp.data.bind FlightPlanData.scheduledDeparture).map Timestamp.seconds).getD 0

/-- Insert into a descending-by-key list, after any earlier equal key
(stability of Rust's `sort_by`). -/
def insertDescBy (key : FlightPlan → Int) (x : FlightPlan) : List FlightPlan → List FlightPlan
  | [] => [x]
  | y :: ys => if key y < key x then x :: y :: ys else y :: insertDescBy key x ys

/-- Stable descending sort by key (`sort_by(|a, b| b.key.cmp(&a.key))`). -/
def sortDescBy (key : FlightPlan → Int) (l : List FlightPlan) : List FlightPlan :=
  l.foldl (fun acc x => insertDescBy key x acc) []

/-- `get_vehicle_scheduled_location` (`src/utils/router_state.rs`): filter
this vehicle's plans already departed at `timestamp`, sort newest first; if
none, the vehicle is parked at its `last_vertiport_id`; otherwise it is
at/bound for the newest plan's destination, with `minutes_to_arrival`
clamped at 0 (`i64` division truncates towards zero). -/
def get_vehicle_scheduled_location (vehicle : Vehicle) (timestamp : Int)
    (existingFlightPlans : List FlightPlan) : Option (String × Nat) :=
  match filterPlansM
    (fun fp =>
      match fp.data with
      | none => none
      | some d =>
        if d.vehicleId = vehicle.id then
          match d.scheduledDeparture with
          | none => none
          | some dep => some (decide (dep.seconds ≤ timestamp))
        else some false)
    existingFlightPlans with
  | none => none
  | some vehicleFlightPlans =>
    match sortDescBy depSecondsKey vehicleFlightPlans with
    | [] =>
      match vehicle.data with
      | none => none
      | some vd =>
        match vd.lastVertiportId with
        | none => none
        | some last => some (last, 0)
    | vfp :: _ =>
      match vfp.data with
      | none => none
      | some d =>
        match d.scheduledArrival with
        | none => none
        | some arr =>
          match d.destinationVertiportId with
          | none => none
          | some dst =>
            let minutesToArrival := (arr.seconds - timestamp).tdiv 60
            some (dst, (if minutesToArrival < 0 then 0 else minutesToArrival).toNat)

/-- The two process-wide `OnceCell`s of `src/utils/router_state.rs`
(`NODES` and `ARROW_CARGO_ROUTER`), made explicit state. -/
structure RState where
  nodes : Option (List Node)
  router : Option Router

/-- `NearbyLocationQuery` (`src/utils/router_state.rs`). -/
structure NearbyLocationQuery where
  location : Location
  radius : ℚ
  capacity : Int

/-- `is_router_initialized`. -/
def is_router_initialized (st : RState) : Bool := st.router.isSome

/-- `get_node_by_id` (`src/utils/router_state.rs`): `NODES.get().expect(..)`
panics when the node cell is unset (the outer `Option`); an id with no
matching node is a string error. -/
def get_node_by_id (nodesCell : Option (List Node)) (id : String) :
    Option (Except String Node) :=
  match nodesCell with
  | none => none
  | some nodes =>
    match nodes.find? (fun n => n.uid == id) with
    | some n => some (Except.ok n)
    | none => some (Except.error ("Node not found by id: " ++ id))

/-- The location list `get_route` builds from a path of node indices; an
index with no node in the graph is `.unwrap()`ed, i.e. a panic. -/
def route_locations (r : Router) : List Nat → Option (List Location)
  | [] => some []
  | i :: is =>
    match r.nodeAt i with
    | none => none
    | some n =>
      match route_locations r is with
      | none => none
      | some rest => some (n.location :: rest)

/-- `get_route` (`src/utils/router_state.rs`): check the router cell, run
`find_shortest_path` with `Algorithm::Dijkstra` and no heuristic, and map
the returned indices to locations. -/
def get_route (st : RState) (nfrom nto : Node) :
    Option (Except String (List Location × ℚ)) :=
  match st.router with
  | none => some (Except.error "Arrow XL router not initialized. Try to initialize it first.")
  | some r =>
    let result := find_shortest_path r nfrom nto Algorithm.Dijkstra none
    match route_locations r result.2 with
    | none => none
    | some locations => some (Except.ok (locations, result.1))

/-- `ARROW_CARGO_CONSTRAINT` (75.0 km). -/
def ARROW_CARGO_CONSTRAINT : ℚ := 75

/-- `init_router` (`src/utils/router_state.rs`): requires `NODES` set,
fails when the router cell is already set, otherwise builds the router with
the haversine constraint and cost functions.  `hav` is the modelled
geodesy kernel (`src/utils/haversine.rs` is not under `src/`). -/
def init_router (hav : Location → Location → ℚ) (st : RState) :
    RState × Except String Unit :=
  match st.nodes with
  | none => (st, Except.error "Nodes not initialized. Try to get some nodes first.")
  | some ns =>
    match st.router with
    | some _ =>
      (st, Except.error "Router already initialized. Try to use the router instead of initializing it.")
    | none =>
      ({ st with
          router := some (Router.new ns ARROW_CARGO_CONSTRAINT
            (fun a b => hav a.location b.location)
            (fun a b => hav a.location b.location)) },
        Except.ok ())

/-- The `vertiports.iter().map(..)` step of `init_router_from_vertiports`:
each vertiport becomes a `Node` with its id, coordinates, altitude 0 and
status `Ok`; `.unwrap()` on missing data is a panic (`none`). -/
def vertiportNodes : List Vertiport → Option (List Node)
  | [] => some []
  | vp :: vps =>
    match vp.data with
    | none => none
    | some d =>
      match vertiportNodes vps with
      | none => none
      | some rest =>
        some (Node.mk vp.id
          { latitude := d.latitude, longitude := d.longitude, altitudeMeters := 0 }
          none Status.Ok :: rest)

/-- `init_router_from_vertiports` (`src/utils/router_state.rs`): map each
vertiport to a `Node` (`.unwrap()` on missing data is a panic, hence the
outer `Option`), then `NODES.set(..).map_err(|_| "Failed to set NODES")?`
and `init_router()`. -/
def init_router_from_vertiports (hav : Location → Location → ℚ) (st : RState)
    (vertiports : List Vertiport) : Option (RState × Except String Unit) :=
  match vertiportNodes vertiports with
  | none => none
  | some ns =>
    match st.nodes with
    | some _ => some (st, Except.error "Failed to set NODES")
    | none => some (init_router hav { st with nodes := some ns })

/-- `get_nearby_nodes` (`src/utils/router_state.rs`): `NODES.set(generate_
nodes_near(..)).expect("Failed to generate nodes")` — a second set attempt
panics (`none`); `gen` is the modelled random node generator
(`src/utils/generator.rs` draws from `ThreadRng`). -/
def get_nearby_nodes (gen : Location → ℚ → Int → List Node) (st : RState)
    (query : NearbyLocationQuery) : Option (RState × List Node) :=
  match st.nodes with
  | some _ => none
  | none =>
    let ns := gen query.location query.radius query.capacity
    some ({ st with nodes := some ns }, ns)

/-- `LOADING_AND_TAKEOFF_TIME_MIN` (10.0). -/
def LOADING_AND_TAKEOFF_TIME_MIN : ℚ := 10

/-- `LANDING_AND_UNLOADING_TIME_MIN` (10.0). -/
def LANDING_AND_UNLOADING_TIME_MIN : ℚ := 10

/-- `AVG_SPEED_KMH` (60.0). -/
def AVG_SPEED_KMH : ℚ := 60

/-- `FLIGHT_PLAN_GAP_MINUTES` (5.0). -/
def FLIGHT_PLAN_GAP_MINUTES : ℚ := 5

/-- `MAX_RETURNED_FLIGHT_PLANS` (10, an `i64`). -/
def MAX_RETURNED_FLIGHT_PLANS : Int := 10

/-- `estimate_flight_time_minutes` (`src/utils/router_state.rs`), `Cargo`
arm: loading + distance/speed·60 + unloading — the estimate already
includes both ground blocks. -/
def estimate_flight_time_minutes (distanceKm : ℚ) : ℚ :=
  LOADING_AND_TAKEOFF_TIME_MIN + distanceKm / AVG_SPEED_KMH * 60 + LANDING_AND_UNLOADING_TIME_MIN

/-- Truncation towards zero of a rational, Rust's `f32 as i64`. -/
def ratTrunc (q : ℚ) : Int := if q < 0 then -(Rat.floor (-q)) else Rat.floor q

/-- The `u32` reinterpretation of an `i32` value (`nanos as u32`). -/
def u32cast (n : Int) : Int := n % 4294967296

/-- The `i32` reinterpretation of a `u32` value
(`timestamp_subsec_nanos() as i32`). -/
def i32cast (n : Int) : Int := (n % 4294967296 + 2147483648) % 4294967296 - 2147483648

/-- Modelled from the spec: chrono's `NaiveDateTime::from_timestamp_opt`
(an external crate) returns `None` for a nanosecond count of two billion or
more, or for seconds outside the `±262_000`-year datetime range; the two
bounds are the timestamps of chrono's minimal and maximal naive datetimes. -/
def timestampOk (secs : Int) (nanosU32 : Int) : Bool :=
  nanosU32 < 2000000000 && decide (-8334632851200 ≤ secs) && decide (secs ≤ 8210298412799)

/-- `create_flight_plan_data` (`src/utils/router_state.rs`), restricted to
the fields the core reads: vehicle id, the two endpoint ids, and the two
scheduled timestamps taken from the slot's departure/arrival datetimes. -/
def create_flight_plan_data (vehicle : Vehicle) (departureVertiport arrivalVertiport : Vertiport)
    (departureTime arrivalTime : Timestamp) : FlightPlanData :=
  { vehicleId := vehicle.id
    departureVertiportId := some departureVertiport.id
    destinationVertiportId := some arrivalVertiport.id
    scheduledDeparture := some departureTime
    scheduledArrival := some arrivalTime }

/-- `num_flight_options` of `get_possible_flights`:
`((window - block) / FLIGHT_PLAN_GAP_MINUTES).floor() as i64 + 1`, capped at
`MAX_RETURNED_FLIGHT_PLANS`. -/
def num_flight_options (timeWindowMinutes blockMinutes : ℚ) : Int :=
  let n := Rat.floor ((timeWindowMinutes - blockMinutes) / FLIGHT_PLAN_GAP_MINUTES) + 1
  if n > MAX_RETURNED_FLIGHT_PLANS then MAX_RETURNED_FLIGHT_PLANS else n

/-- The per-request environment of the candidate-slot loop of
`get_possible_flights`. -/
structure SlotEnv where
  parseCal : String → Option Calendar
  vertiportDepart : Vertiport
  vertiportArrive : Vertiport
  earliest : Timestamp
  blockMinutes : ℚ
  vehicles : List Vehicle
  plans : List FlightPlan

/-- Departure seconds of candidate slot `i`:
`earliest + i * 60 * (FLIGHT_PLAN_GAP_MINUTES as i64)`. -/
def slotDepSecs (env : SlotEnv) (i : Nat) : Int :=
  env.earliest.seconds + (i : Int) * 60 * 5

/-- The vehicle loop of one slot: first vehicle parked at the departure
vertiport (`minutes_to_arrival = 0`) that is available for the whole block. -/
def findAvailableVehicle (env : SlotEnv) (depSecs : Int) :
    List Vehicle → Option (Option Vehicle)
  | [] => some none
  | v :: vs =>
    match get_vehicle_scheduled_location v depSecs env.plans with
    | none => none
    | some (vehicleVertiportId, minutesToArrival) =>
      if vehicleVertiportId ≠ env.vertiportDepart.id ∨ 0 < minutesToArrival then
        findAvailableVehicle env depSecs vs
      else
        match is_vehicle_available env.parseCal v depSecs (ratTrunc env.blockMinutes) env.plans with
        | none => none
        | some true => some (some v)
        | some false => findAvailableVehicle env depSecs vs

/-- One iteration of the candidate-slot loop of `get_possible_flights`:
build the slot's departure datetime (`Invalid departure_time` error when
chrono rejects it), probe both vertiports (computed before either is
tested), skip the slot when a check fails, otherwise emit the draft plan of
the first available vehicle.  `some (.ok none)` is a skipped slot. -/
def processSlot (env : SlotEnv) (i : Nat) : Option (Except String (Option FlightPlanData)) :=
  let depSecs := slotDepSecs env i
  let nn := u32cast env.earliest.nanos
  if timestampOk depSecs nn = false then some (Except.error "Invalid departure_time")
  else
    let arrSecs := depSecs + ratTrunc env.blockMinutes * 60
    match is_vertiport_available env.parseCal env.vertiportDepart depSecs env.plans true with
    | none => none
    | some isDepartureVertiportAvailable =>
      match is_vertiport_available env.parseCal env.vertiportArrive (arrSecs - 10 * 60)
          env.plans false with
      | none => none
      | some isArrivalVertiportAvailable =>
        if isDepartureVertiportAvailable = false then some (Except.ok none)
        else if isArrivalVertiportAvailable = false then some (Except.ok none)
        else
          match findAvailableVehicle env depSecs env.vehicles with
          | none => none
          | some none => some (Except.ok none)
          | some (some v) =>
            some (Except.ok (some (create_flight_plan_data v env.vertiportDepart
              env.vertiportArrive ⟨depSecs, i32cast nn⟩ ⟨arrSecs, i32cast nn⟩)))

/-- The candidate-slot loop: run the slots in order, accumulate emitted
plans, propagate the first error (which discards the accumulator, as the
`?` inside the Rust loop does) and the first panic. -/
def slotLoop (env : SlotEnv) : List Nat → List FlightPlanData →
    Option (Except String (List FlightPlanData))
  | [], acc => some (Except.ok acc)
  | i :: rest, acc =>
    match processSlot env i with
    | none => none
    | some (Except.error e) => some (Except.error e)
    | some (Except.ok none) => slotLoop env rest acc
    | some (Except.ok (some p)) => slotLoop env rest (acc ++ [p])

/-- The window size in minutes:
`((latest.seconds - earliest.seconds) / 60) as f32` (`i64` division). -/
def windowMinutes (earliest latest : Timestamp) : ℚ :=
  ((latest.seconds - earliest.seconds).tdiv 60 : Int)

/-- `get_possible_flights` (`src/utils/router_state.rs`): timestamps
present, router initialized, endpoints resolved, route found, window large
enough, then the candidate-slot loop; an empty emission list is the
`No flight plans found` error. -/
def get_possible_flights (parseCal : String → Option Calendar) (st : RState)
    (vertiportDepart vertiportArrive : Vertiport)
    (earliestDepartureTime latestArrivalTime : Option Timestamp)
    (vehicles : List Vehicle) (existingFlightPlans : List FlightPlan) :
    Option (Except String (List FlightPlanData)) :=
  match earliestDepartureTime, latestArrivalTime with
  | some earliest, some latest =>
    if is_router_initialized st = false then some (Except.error "Router not initialized")
    else
      match get_node_by_id st.nodes vertiportDepart.id with
      | none => none
      | some (Except.error e) => some (Except.error e)
      | some (Except.ok nfrom) =>
        match get_node_by_id st.nodes vertiportArrive.id with
        | none => none
        | some (Except.error e) => some (Except.error e)
        | some (Except.ok nto) =>
          match get_route st nfrom nto with
          | none => none
          | some (Except.error e) => some (Except.error e)
          | some (Except.ok (route, cost)) =>
            if route.isEmpty then some (Except.error "Route between vertiports not found")
            else
              let blockAircraftAndVertiportsMinutes :=
                estimate_flight_time_minutes cost
                  + LOADING_AND_TAKEOFF_TIME_MIN + LANDING_AND_UNLOADING_TIME_MIN
              let timeWindowDurationMinutes := windowMinutes earliest latest
              if timeWindowDurationMinutes - blockAircraftAndVertiportsMinutes < 0 then
                some (Except.error "Time window too small to schedule flight")
              else
                let numFlightOptions :=
                  num_flight_options timeWindowDurationMinutes blockAircraftAndVertiportsMinutes
                let env : SlotEnv :=
                  { parseCal := parseCal
                    vertiportDepart := vertiportDepart
                    vertiportArrive := vertiportArrive
                    earliest := earliest
                    blockMinutes := blockAircraftAndVertiportsMinutes
                    vehicles := vehicles
                    plans := existingFlightPlans }
                match slotLoop env (List.range numFlightOptions.toNat) [] with
                | none => none
                | some (Except.error e) => some (Except.error e)
                | some (Except.ok flightPlans) =>
                  if flightPlans.isEmpty then
                    some (Except.error "No flight plans found (deadhead flights not implemented)")
                  else some (Except.ok flightPlans)
  | _, _ => some (Except.error "Both earliest departure and latest arrival time must be specified")

deriving instance DecidableEq for Except

/-- Always-available calendar, used by the concrete scenarios. -/
def calTrue : Calendar := ⟨fun _ _ => true⟩

/-- Calendar parser accepting everything as always-available. -/
def parseTrue : String → Option Calendar := fun _ => some calTrue

/-- Concrete location. -/
def locA : Location := ⟨1, 2, 0⟩

/-- Concrete location. -/
def locB : Location := ⟨3, 4, 0⟩

/-- Concrete node with uid `A`. -/
def nodeA : Node := Node.mk "A" locA none Status.Ok

/-- Concrete node with uid `B`. -/
def nodeB : Node := Node.mk "B" locB none Status.Ok

/-- Concrete node with uid `X`, never registered in any router. -/
def nodeX : Node := Node.mk "X" locA none Status.Ok

/-- Constant distance function keeping every pair within the 75 km range. -/
def cost60 : Node → Node → ℚ := fun _ _ => 60

/-- Constant distance function putting every pair out of range. -/
def costFar : Node → Node → ℚ := fun _ _ => 1000

/-- Two-node router whose nodes are 60 km apart. -/
def router0 : Router := Router.new [nodeA, nodeB] 75 cost60 cost60

/-- Two-node router with no edges (all pairs out of range). -/
def routerDisc : Router := Router.new [nodeA, nodeB] 75 costFar costFar

/-- Initialized state holding `router0` and its nodes. -/
def st0 : RState := ⟨some [nodeA, nodeB], some router0⟩

/-- Concrete vertiport record for node `A`. -/
def vpA : Vertiport := ⟨"A", some ⟨1, 2, some "s"⟩⟩

/-- Concrete vertiport record for node `B`. -/
def vpB : Vertiport := ⟨"B", some ⟨3, 4, some "s"⟩⟩

/-- Concrete vehicle parked at vertiport `A`. -/
def veh1 : Vehicle := ⟨"V1", some ⟨some "s", some "A"⟩⟩

/-- The first plan the concrete two-slot scenario emits. -/
def planOut0 : FlightPlanData := ⟨"V1", some "A", some "B", some ⟨0, 0⟩, some ⟨6000, 0⟩⟩

/-- The second plan the concrete two-slot scenario emits. -/
def planOut1 : FlightPlanData := ⟨"V1", some "A", some "B", some ⟨300, 0⟩, some ⟨6300, 0⟩⟩

/-- A flight plan of an unrelated vehicle with both scheduled timestamps
missing. -/
def planDefectiveOther : FlightPlan := ⟨"P1", some ⟨"OTHER", some "A", some "B", none, none⟩⟩

/-- Folding a push-if-then loop equals appending a `filterMap`. -/
theorem foldl_push_ite {α β : Type} (p : α → Prop) [DecidablePred p] (f : α → β)
    (l : List α) :
    ∀ acc : List β,
      l.foldl (fun a x => if p x then a ++ [f x] else a) acc
        = acc ++ l.filterMap (fun x => if p x then some (f x) else none) := by
  induction l with
  | nil => intro acc; simp
  | cons x xs ih =>
    intro acc
    by_cases h : p x <;> simp [h, ih]

/-- The edge list the spec's words describe (§4.3): for every ordered pair
`(u, v)` of slice elements, in iteration order of the slice (outer loop over
`u`, inner loop over `v`), with `u ≠ v` and `constraint_fn(u,v) ≤ range_max`,
the edge `(u, v, cost_fn(u,v))`. -/
def edgesBySpec (nodes : List Node) (constraint : ℚ)
    (constraintFn costFn : Node → Node → ℚ) : List (Node × Node × ℚ) :=
  nodes.flatMap (fun u =>
    nodes.filterMap (fun v =>
      if nodeEq u v = false ∧ constraintFn u v ≤ constraint then
        some (u, v, costFn u v)
      else none))

/-- The two formulations of the edge builder agree. -/
theorem build_edges_eq_edgesBySpec (nodes : List Node) (constraint : ℚ)
    (constraintFn costFn : Node → Node → ℚ) :
    build_edges nodes constraint constraintFn costFn
      = edgesBySpec nodes constraint constraintFn costFn := by
  rw [build_edges, edgesBySpec]
  have inner : ∀ (nfrom : Node) (acc : List (Node × Node × ℚ)),
      nodes.foldl
        (fun edges nto =>
          if nodeEq nfrom nto = false ∧ constraintFn nfrom nto ≤ constraint then
            edges ++ [(nfrom, nto, costFn nfrom nto)]
          else edges)
        acc
      = acc ++ nodes.filterMap (fun v =>
          if nodeEq nfrom v = false ∧ constraintFn nfrom v ≤ constraint then
            some (nfrom, v, costFn nfrom v)
          else none) := by
    intro nfrom acc
    exact foldl_push_ite
      (fun v => nodeEq nfrom v = false ∧ constraintFn nfrom v ≤ constraint)
      (fun v => (nfrom, v, costFn nfrom v)) nodes acc
  suffices h : ∀ (l : List Node) (acc : List (Node × Node × ℚ)),
      l.foldl
        (fun edges nfrom =>
          nodes.foldl
            (fun edges nto =>
              if nodeEq nfrom nto = false ∧ constraintFn nfrom nto ≤ constraint then
                edges ++ [(nfrom, nto, costFn nfrom nto)]
              else edges)
            edges)
        acc
      = acc ++ l.flatMap (fun u =>
          nodes.filterMap (fun v =>
            if nodeEq u v = false ∧ constraintFn u v ≤ constraint then
              some (u, v, costFn u v)
            else none)) by
    simpa using h nodes []
  intro l
  induction l with
  | nil => intro acc; simp
  | cons x xs ih =>
    intro acc
    rw [List.foldl_cons, inner x acc, ih, List.flatMap_cons, List.append_assoc]

/-- Membership in the edge list of a possibly-panicking pair. -/
theorem mem_build_edges (nodes : List Node) (constraint : ℚ)
    (constraintFn costFn : Node → Node → ℚ) (u v : Node) (w : ℚ) :
    (u, v, w) ∈ build_edges nodes constraint constraintFn costFn
      ↔ u ∈ nodes ∧ v ∈ nodes ∧ nodeEq u v = false ∧ constraintFn u v ≤ constraint
          ∧ w = costFn u v := by
  rw [build_edges_eq_edgesBySpec, edgesBySpec]
  simp only [List.mem_flatMap, List.mem_filterMap]
  constructor
  · rintro ⟨a, ha, b, hb, hif⟩
    by_cases h : nodeEq a b = false ∧ constraintFn a b ≤ constraint
    · rw [if_pos h] at hif
      simp only [Option.some.injEq, Prod.mk.injEq] at hif
      obtain ⟨rfl, rfl, hw⟩ := hif
      exact ⟨ha, hb, h.1, h.2, hw.symm⟩
    · rw [if_neg h] at hif
      exact absurd hif (by simp)
  · rintro ⟨hu, hv, hne, hle, rfl⟩
    exact ⟨u, hu, v, hv, by rw [if_pos ⟨hne, hle⟩]⟩

/-- C5: for every site slice, range, constraint function and cost function,
`build_edges` returns exactly the ordered pairs `(u, v)` with `u ≠ v` and
`constraint_fn(u, v) ≤ range_max`, each carrying weight `cost_fn(u, v)`,
with no self-loops, emitted in the iteration order of the input slice
(outer loop over `from`, inner loop over `to`). -/
theorem c5_build_edges_characterization (nodes : List Node) (constraint : ℚ)
    (constraintFn costFn : Node → Node → ℚ) :
    build_edges nodes constraint constraintFn costFn
      = edgesBySpec nodes constraint constraintFn costFn
    ∧ (∀ u v w, (u, v, w) ∈ build_edges nodes constraint constraintFn costFn
        ↔ u ∈ nodes ∧ v ∈ nodes ∧ nodeEq u v = false ∧ constraintFn u v ≤ constraint
            ∧ w = costFn u v)
    ∧ (∀ e ∈ build_edges nodes constraint constraintFn costFn, nodeEq e.1 e.2.1 = false) := by
  refine ⟨build_edges_eq_edgesBySpec nodes constraint constraintFn costFn,
    fun u v w => mem_build_edges nodes constraint constraintFn costFn u v w, ?_⟩
  rintro ⟨u, v, w⟩ he
  exact ((mem_build_edges nodes constraint constraintFn costFn u v w).mp he).2.2.1

/-- Witness for C5: in the concrete two-node slice, the in-range ordered
pair is an emitted edge. -/
theorem c5_build_edges_characterization_witness :
    (nodeA, nodeB, (60 : ℚ)) ∈ build_edges [nodeA, nodeB] 75 cost60 cost60 :=
  ((c5_build_edges_characterization [nodeA, nodeB] 75 cost60 cost60).2.1 nodeA nodeB 60).mpr
    ⟨List.mem_cons_self _ _, by simp, by decide, by decide, rfl⟩

/-- C8: for every router, endpoints and heuristic argument,
`find_shortest_path` returns the same result under `Algorithm::Dijkstra`
and `Algorithm::AStar`; the tag is informational only. -/
theorem c8_algorithm_tag_informational (r : Router) (nfrom nto : Node)
    (heuristicFn : Option (Nat → ℚ)) :
    find_shortest_path r nfrom nto Algorithm.Dijkstra heuristicFn
      = find_shortest_path r nfrom nto Algorithm.AStar heuristicFn := by
  unfold find_shortest_path
  rcases r.getNodeIndex nfrom with _ | fi <;> rcases r.getNodeIndex nto with _ | ti <;> rfl

/-- C9: node equality and hashing are by uid only — equal uids compare
equal (and unequal uids unequal) whatever the other fields, every hasher
hashes equal-uid nodes identically, and `build_edges` treats same-uid nodes
as the same vertex: a slice of two same-uid nodes yields no edge. -/
theorem c9_node_identity :
    (∀ a b : Node, nodeEq a b = true ↔ a.uid = b.uid)
    ∧ (∀ (hsh : String → Nat) (a b : Node),
        nodeEq a b = true → nodeHashBy hsh a = nodeHashBy hsh b)
    ∧ (∀ (u : String) (la lb : Location) (fa fb : Option Node) (sa sb : Status)
        (constraint : ℚ) (cf costf : Node → Node → ℚ),
        build_edges [Node.mk u la fa sa, Node.mk u lb fb sb] constraint cf costf = []) := by
  refine ⟨?_, ?_, ?_⟩
  · intro a b
    simp [nodeEq]
  · intro hsh a b h
    simp only [nodeEq, beq_iff_eq] at h
    simp [nodeHashBy, h]
  · intro u la lb fa fb sa sb c cf costf
    simp [build_edges, nodeEq, Node.uid]

/-- Witness for C9: two nodes sharing uid `A` but differing in location,
status and forward pointer compare equal, hash identically, and span no
edge. -/
theorem c9_node_identity_witness :
    nodeEq (Node.mk "A" locA none Status.Ok) (Node.mk "A" locB (some nodeB) Status.Closed) = true
    ∧ nodeHashBy String.length (Node.mk "A" locA none Status.Ok)
        = nodeHashBy String.length (Node.mk "A" locB (some nodeB) Status.Closed)
    ∧ build_edges [Node.mk "A" locA none Status.Ok,
        Node.mk "A" locB (some nodeB) Status.Closed] 75 cost60 cost60 = [] :=
  ⟨(c9_node_identity.1 _ _).mpr rfl,
    c9_node_identity.2.1 String.length _ _ rfl,
    c9_node_identity.2.2 "A" locA locB none (some nodeB) Status.Ok Status.Closed 75 cost60 cost60⟩

/-- A possibly-panicking count panics as soon as any element panics. -/
theorem countTrueM_none {α : Type} (f : α → Option Bool) (l : List α)
    (h : ∃ a ∈ l, f a = none) : countTrueM f l = none := by
  induction l with
  | nil => simp at h
  | cons a as ih =>
    obtain ⟨x, hx, hfx⟩ := h
    rcases List.mem_cons.mp hx with rfl | hx'
    · simp [countTrueM, hfx]
    · cases hfa : f a with
      | none => simp [countTrueM, hfa]
      | some b => simp [countTrueM, hfa, ih ⟨x, hx', hfx⟩]

/-- A possibly-panicking filter panics as soon as any element panics. -/
theorem filterPlansM_none (f : FlightPlan → Option Bool) (l : List FlightPlan)
    (h : ∃ a ∈ l, f a = none) : filterPlansM f l = none := by
  induction l with
  | nil => simp at h
  | cons a as ih =>
    obtain ⟨x, hx, hfx⟩ := h
    rcases List.mem_cons.mp hx with rfl | hx'
    · simp [filterPlansM, hfx]
    · cases hfa : f a with
      | none => simp [filterPlansM, hfa]
      | some b => simp [filterPlansM, hfa, ih ⟨x, hx', hfx⟩]

/-- C10 counterexample: the claim says a plan with missing scheduled
timestamps makes the helpers panic, but `is_vehicle_available` short-circuits
on the vehicle-id test — with a defective plan belonging to a different
vehicle the call returns normally (`some true`), not a panic (`none`). -/
theorem c10_counterexample_no_panic :
    is_vehicle_available parseTrue veh1 0 100 [planDefectiveOther] = some true := by decide

/-- C10 amended: the helpers panic when the queried record itself is
unpopulated — a vehicle with no data, no schedule, or an unparseable
schedule; a plan with no data panics `is_vehicle_available` only once the
schedule check passes, and always panics `get_vehicle_scheduled_location`;
in `is_vertiport_available` (departure role, schedule check passed) a plan
missing the departure endpoint id panics.  (Plans of other vehicles with
missing timestamps are skipped without panicking, per the counterexample.) -/
theorem c10_amended_panic_conditions :
    (∀ (pc : String → Option Calendar) (v : Vehicle) (d m : Int) (ps : List FlightPlan),
      v.data = none → is_vehicle_available pc v d m ps = none)
    ∧ (∀ (pc : String → Option Calendar) (v : Vehicle) (vd : VehicleData) (d m : Int)
        (ps : List FlightPlan), v.data = some vd → vd.schedule = none →
        is_vehicle_available pc v d m ps = none)
    ∧ (∀ (pc : String → Option Calendar) (v : Vehicle) (vd : VehicleData) (s : String)
        (d m : Int) (ps : List FlightPlan), v.data = some vd → vd.schedule = some s →
        pc s = none → is_vehicle_available pc v d m ps = none)
    ∧ (∀ (pc : String → Option Calendar) (v : Vehicle) (vd : VehicleData) (s : String)
        (cal : Calendar) (d m : Int) (ps : List FlightPlan),
        v.data = some vd → vd.schedule = some s → pc s = some cal →
        cal.avail d (d + m * 60) = true → (∃ p ∈ ps, p.data = none) →
        is_vehicle_available pc v d m ps = none)
    ∧ (∀ (pc : String → Option Calendar) (vp : Vertiport) (d : Int) (ps : List FlightPlan)
        (b : Bool), vp.data = none → is_vertiport_available pc vp d ps b = none)
    ∧ (∀ (pc : String → Option Calendar) (vp : Vertiport) (vd : VertiportData) (s : String)
        (cal : Calendar) (d : Int) (ps : List FlightPlan),
        vp.data = some vd → vd.schedule = some s → pc s = some cal →
        cal.avail d (d + 600) = true →
        (∃ p ∈ ps, ∃ pd, p.data = some pd ∧ pd.departureVertiportId = none) →
        is_vertiport_available pc vp d ps true = none)
    ∧ (∀ (v : Vehicle) (ts : Int) (ps : List FlightPlan), (∃ p ∈ ps, p.data = none) →
        get_vehicle_scheduled_location v ts ps = none) := by
  refine ⟨?_, ?_, ?_, ?_, ?_, ?_, ?_⟩
  · intro pc v d m ps h
    simp [is_vehicle_available, h]
  · intro pc v vd d m ps h1 h2
    simp [is_vehicle_available, h1, h2]
  · intro pc v vd s d m ps h1 h2 h3
    simp [is_vehicle_available, h1, h2, h3]
  · intro pc v vd s cal d m ps h1 h2 h3 h4 ⟨p, hp, hpd⟩
    have hcount : countTrueM
        (fun fp =>
          match fp.data with
          | none => none
          | some dd =>
            if dd.vehicleId = v.id then
              match dd.scheduledDeparture with
              | none => none
              | some dep =>
                match dd.scheduledArrival with
                | none => none
                | some arr => some (time_ranges_overlap dep.seconds arr.seconds d (d + m * 60))
            else some false) ps = none :=
      countTrueM_none _ ps ⟨p, hp, by simp [hpd]⟩
    simp [is_vehicle_available, h1, h2, h3, h4, hcount]
  · intro pc vp d ps b h
    simp [is_vertiport_available, h]
  · intro pc vp vd s cal d ps h1 h2 h3 h4 ⟨p, hp, pd, hpd, hdep⟩
    have key : ∀ f : FlightPlan → Option Bool, f p = none →
        (match countTrueM f ps with
         | none => none
         | some conflicting => some (decide (conflicting = 0))) = (none : Option Bool) := by
      intro f hf
      rw [countTrueM_none f ps ⟨p, hp, hf⟩]
    simp [is_vertiport_available, h1, h2, h3, h4]
    refine key _ ?_
    simp [hpd, hdep]
  · intro v ts ps ⟨p, hp, hpd⟩
    have hfil : filterPlansM
        (fun fp =>
          match fp.data with
          | none => none
          | some dd =>
            if dd.vehicleId = v.id then
              match dd.scheduledDeparture with
              | none => none
              | some dep => some (decide (dep.seconds ≤ ts))
            else some false) ps = none :=
      filterPlansM_none _ ps ⟨p, hp, by simp [hpd]⟩
    simp [get_vehicle_scheduled_location, hfil]

/-- Witness for C10: a data-less vehicle panics the availability check, and
a data-less plan panics the forecast helper. -/
theorem c10_amended_panic_conditions_witness :
    is_vehicle_available parseTrue ⟨"V", none⟩ 0 100 [] = none
    ∧ get_vehicle_scheduled_location veh1 0 [⟨"P", none⟩] = none :=
  ⟨c10_amended_panic_conditions.1 parseTrue ⟨"V", none⟩ 0 100 [] rfl,
    c10_amended_panic_conditions.2.2.2.2.2.2 veh1 0 [⟨"P", none⟩]
      ⟨⟨"P", none⟩, by simp, rfl⟩⟩

/-- A node generator returning no nodes, for the concrete singleton
scenarios. -/
def genEmpty : Location → ℚ → Int → List Node := fun _ _ _ => []

/-- C7 counterexample: with the site-set singleton already set, a second
`get_nearby_nodes` call panics (`NODES.set(..).expect(..)`, modelled `none`)
instead of failing with an `AlreadyInitialized`-style error — there is no
error value it could return. -/
theorem c7_counterexample_get_nearby_nodes_panics :
    get_nearby_nodes genEmpty ⟨some [nodeA], none⟩ ⟨locA, 1, 1⟩ = none := rfl

/-- C7 amended: the router singleton is set at most once — a second
`init_router` fails with the distinct `Router already initialized` error and
leaves the state unchanged; the site-set singleton keeps its first value —
a second `init_router_from_vertiports` (with parseable vertiports) fails
with the distinct `Failed to set NODES` error and leaves the state
unchanged; but a second `get_nearby_nodes` panics instead of returning an
error; the two error messages are distinct. -/
theorem c7_amended_singletons_set_once :
    (∀ (hav : Location → Location → ℚ) (st : RState) (ns : List Node) (r : Router),
      st.nodes = some ns → st.router = some r →
      init_router hav st
        = (st, Except.error "Router already initialized. Try to use the router instead of initializing it."))
    ∧ (∀ (hav : Location → Location → ℚ) (st : RState) (ns : List Node)
        (vertiports : List Vertiport), st.nodes = some ns →
        (∀ vp ∈ vertiports, vp.data.isSome) →
        init_router_from_vertiports hav st vertiports
          = some (st, Except.error "Failed to set NODES"))
    ∧ (∀ (gen : Location → ℚ → Int → List Node) (st : RState) (ns : List Node)
        (query : NearbyLocationQuery), st.nodes = some ns →
        get_nearby_nodes gen st query = none)
    ∧ "Router already initialized. Try to use the router instead of initializing it."
        ≠ "Failed to set NODES" := by
  refine ⟨?_, ?_, ?_, by decide⟩
  · intro hav st ns r h1 h2
    simp [init_router, h1, h2]
  · intro hav st ns vertiports h1 hdata
    have hmap : ∃ l, vertiportNodes vertiports = some l := by
      induction vertiports with
      | nil => exact ⟨[], rfl⟩
      | cons vp vps ih =>
        obtain ⟨vd, hvd⟩ := Option.isSome_iff_exists.mp (hdata vp (List.mem_cons_self vp vps))
        obtain ⟨l, hl⟩ := ih (fun x hx => hdata x (List.mem_cons_of_mem vp hx))
        refine ⟨Node.mk vp.id
          { latitude := vd.latitude, longitude := vd.longitude, altitudeMeters := 0 }
          none Status.Ok :: l, ?_⟩
        simp [vertiportNodes, hvd, hl]
    obtain ⟨l, hl⟩ := hmap
    simp [init_router_from_vertiports, hl, h1]
  · intro gen st ns query h
    simp [get_nearby_nodes, h]

/-- Witness for C7: on a state holding an empty node list and the router
built from it, re-initialization of the router errs distinctly, repeated
vertiport initialization errs distinctly, and a repeated node generation
panics. -/
theorem c7_amended_singletons_set_once_witness :
    init_router (fun _ _ => 0) ⟨some [nodeA], some router0⟩
      = (⟨some [nodeA], some router0⟩,
          Except.error "Router already initialized. Try to use the router instead of initializing it.")
    ∧ init_router_from_vertiports (fun _ _ => 0) ⟨some [nodeA], some router0⟩ [vpA]
      = some (⟨some [nodeA], some router0⟩, Except.error "Failed to set NODES")
    ∧ get_nearby_nodes genEmpty ⟨some [nodeA], some router0⟩ ⟨locA, 1, 1⟩ = none :=
  ⟨c7_amended_singletons_set_once.1 (fun _ _ => 0) ⟨some [nodeA], some router0⟩ [nodeA]
      router0 rfl rfl,
    c7_amended_singletons_set_once.2.1 (fun _ _ => 0) ⟨some [nodeA], some router0⟩ [nodeA]
      [vpA] rfl (by intro vp hvp; simp at hvp; subst hvp; rfl),
    c7_amended_singletons_set_once.2.2.1 genEmpty ⟨some [nodeA], some router0⟩ [nodeA]
      ⟨locA, 1, 1⟩ rfl⟩

/-- Reversed anchored paths: `RPath g s rp c` states that `rp.reverse` is a
walk from `s` along edges of `g` whose weights sum to `c`; `rp` lists the
visited vertices newest first. -/
inductive RPath (g : List (Nat × Nat × ℚ)) (s : Nat) : List Nat → ℚ → Prop where
  | base : RPath g s [s] 0
  | step {u v : Nat} {w c : ℚ} {rs : List Nat} :
      RPath g s (u :: rs) c → (u, v, w) ∈ g → RPath g s (v :: u :: rs) (c + w)

/-- Reachability along the indexed edge list. -/
def GraphReach (g : List (Nat × Nat × ℚ)) (a b : Nat) : Prop :=
  Relation.ReflTransGen (fun x y => ∃ w, (x, y, w) ∈ g) a b

/-- An anchored path witnesses reachability of its newest vertex. -/
theorem RPath.reach {g : List (Nat × Nat × ℚ)} {s : Nat} {rp : List Nat} {c : ℚ}
    (h : RPath g s rp c) {t : Nat} (ht : rp.head? = some t) : GraphReach g s t := by
  induction h generalizing t with
  | base =>
    simp only [List.head?_cons, Option.some.injEq] at ht
    exact ht ▸ Relation.ReflTransGen.refl
  | step hprev hedge ih =>
    simp only [List.head?_cons, Option.some.injEq] at ht
    exact ht ▸ Relation.ReflTransGen.tail (ih rfl) ⟨_, hedge⟩

/-- Anchored paths are nonempty. -/
theorem RPath.ne_nil {g : List (Nat × Nat × ℚ)} {s : Nat} {rp : List Nat} {c : ℚ}
    (h : RPath g s rp c) : rp ≠ [] := by
  cases h <;> simp

/-- Every vertex of an anchored path is bounded when the start and all edge
targets are. -/
theorem RPath.vertex_lt {g : List (Nat × Nat × ℚ)} {s : Nat} {rp : List Nat} {c : ℚ}
    (h : RPath g s rp c) {L : Nat} (hs : s < L) (hg : ∀ e ∈ g, e.2.1 < L) :
    ∀ v ∈ rp, v < L := by
  induction h with
  | base => simpa using hs
  | step hprev hedge ih =>
    intro v hv
    rcases List.mem_cons.mp hv with rfl | hv'
    · exact hg _ hedge
    · exact ih v hv'

/-- `pickMin` returns a member and keeps only members. -/
theorem pickMin_mem (h : Nat → ℚ) (l : List (Nat × ℚ × List Nat))
    (x : Nat × ℚ × List Nat) (rest : List (Nat × ℚ × List Nat))
    (hp : pickMin h l = some (x, rest)) : x ∈ l ∧ ∀ y ∈ rest, y ∈ l := by
  induction l generalizing x rest with
  | nil => simp [pickMin] at hp
  | cons a as ih =>
    rw [pickMin] at hp
    split at hp
    next hm =>
      simp only [Option.some.injEq, Prod.mk.injEq] at hp
      obtain ⟨rfl, rfl⟩ := hp
      exact ⟨List.mem_cons_self _ _, by simp⟩
    next m r hm =>
      obtain ⟨hmem, hrest⟩ := ih m r hm
      split at hp
      next hle =>
        simp only [Option.some.injEq, Prod.mk.injEq] at hp
        obtain ⟨rfl, rfl⟩ := hp
        exact ⟨List.mem_cons_self _ _, fun y hy => List.mem_cons_of_mem _ hy⟩
      next hle =>
        simp only [Option.some.injEq, Prod.mk.injEq] at hp
        obtain ⟨rfl, rfl⟩ := hp
        refine ⟨List.mem_cons_of_mem _ hmem, fun y hy => ?_⟩
        rcases List.mem_cons.mp hy with rfl | hy'
        · exact List.mem_cons_self _ _
        · exact List.mem_cons_of_mem _ (hrest y hy')

/-- Shape of a successor entry. -/
theorem succEntries_spec (g : List (Nat × Nat × ℚ)) (u : Nat) (cu : ℚ) (rp : List Nat)
    (y : Nat × ℚ × List Nat) (hy : y ∈ succEntries g u cu rp) :
    ∃ v w, (u, v, w) ∈ g ∧ y = (v, cu + w, v :: rp) := by
  simp only [succEntries, List.mem_filterMap] at hy
  obtain ⟨e, he, hif⟩ := hy
  by_cases hu : e.1 = u
  · rw [if_pos hu] at hif
    injection hif with hy'
    refine ⟨e.2.1, e.2.2, ?_, hy'.symm⟩
    rw [← hu]
    exact he
  · rw [if_neg hu] at hif
    exact absurd hif (by simp)

/-- Invariant of the search frontier: every entry's reversed path is an
anchored path of the right cost ending at the entry's vertex. -/
def FrontOk (g : List (Nat × Nat × ℚ)) (s : Nat) (l : List (Nat × ℚ × List Nat)) : Prop :=
  ∀ x ∈ l, RPath g s x.2.2 x.2.1 ∧ x.2.2.head? = some x.1

/-- Soundness of the fuel-bounded search loop: a returned result is the
reverse of an anchored path reaching the goal with exactly the returned
cost. -/
theorem astarLoop_sound (g : List (Nat × Nat × ℚ)) (h : Nat → ℚ) (goal s : Nat) :
    ∀ (fuel : Nat) (frontier : List (Nat × ℚ × List Nat)) (c : ℚ) (pth : List Nat),
      FrontOk g s frontier → astarLoop g h goal fuel frontier = some (c, pth) →
      ∃ rp, pth = rp.reverse ∧ RPath g s rp c ∧ rp.head? = some goal := by
  intro fuel
  induction fuel with
  | zero => intro frontier c pth _ hrun; simp [astarLoop] at hrun
  | succ fuel ih =>
    intro frontier c pth hinv hrun
    rw [astarLoop] at hrun
    split at hrun
    next => simp at hrun
    next x rest hp =>
      obtain ⟨hxmem, hrestmem⟩ := pickMin_mem h frontier x rest hp
      obtain ⟨hxpath, hxhead⟩ := hinv x hxmem
      split at hrun
      next hgoal =>
        simp only [Option.some.injEq, Prod.mk.injEq] at hrun
        obtain ⟨rfl, rfl⟩ := hrun
        exact ⟨x.2.2, rfl, hxpath, hgoal ▸ hxhead⟩
      next hgoal =>
        refine ih _ c pth ?_ hrun
        intro y hy
        rcases List.mem_append.mp hy with hy' | hy'
        · exact hinv y (hrestmem y hy')
        · obtain ⟨v, w, hedge, rfl⟩ := succEntries_spec g x.1 x.2.1 x.2.2 y hy'
          obtain ⟨rs, hurs⟩ : ∃ rs, x.2.2 = x.1 :: rs := by
            cases hx : x.2.2 with
            | nil => exact absurd hx hxpath.ne_nil
            | cons u rs =>
              rw [hx] at hxhead
              simp only [List.head?_cons, Option.some.injEq] at hxhead
              exact ⟨rs, by rw [hxhead]⟩
          constructor
          · rw [hurs]
            exact RPath.step (hurs ▸ hxpath) hedge
          · simp

/-- Soundness of the search entry point. -/
theorem astar_sound (g : List (Nat × Nat × ℚ)) (h : Nat → ℚ) (s goal : Nat)
    (c : ℚ) (pth : List Nat) (hrun : astar g h s goal = some (c, pth)) :
    ∃ rp, pth = rp.reverse ∧ RPath g s rp c ∧ rp.head? = some goal :=
  astarLoop_sound g h goal s (astarFuel g) [(s, 0, [s])] c pth
    (by intro x hx; simp only [List.mem_singleton] at hx; subst hx; exact ⟨RPath.base, rfl⟩)
    hrun

/-- Zipping a concatenated element against the tail appends the closing
pair. -/
theorem zipTail_concat {α : Type} (ys : List α) (a v : α) (h : ys.getLast? = some a) :
    (ys ++ [v]).zip ((ys ++ [v]).tail) = ys.zip ys.tail ++ [(a, v)] := by
  induction ys with
  | nil => simp at h
  | cons x t ih =>
    cases t with
    | nil =>
      simp only [List.getLast?_singleton, Option.some.injEq] at h
      subst h
      simp
    | cons y t2 =>
      have h' : (y :: t2).getLast? = some a := by
        rw [List.getLast?_cons_cons] at h
        exact h
      have ih' := ih h'
      simp only [List.cons_append, List.tail_cons, List.zip_cons_cons] at ih' ⊢
      rw [ih']

/-- An anchored path, read forwards: its consecutive pairs carry edge
weights summing to the cost, it starts at the anchor and ends at the newest
vertex. -/
theorem RPath.to_forall₂ {g : List (Nat × Nat × ℚ)} {s : Nat} {rp : List Nat} {c : ℚ}
    (h : RPath g s rp c) :
    ∃ ws : List ℚ,
      List.Forall₂ (fun (uv : Nat × Nat) (w : ℚ) => (uv.1, uv.2, w) ∈ g)
        (rp.reverse.zip rp.reverse.tail) ws
      ∧ c = ws.sum ∧ rp.reverse.head? = some s ∧ rp.reverse.getLast? = rp.head? := by
  induction h with
  | base => exact ⟨[], by simp, by simp, by simp, by simp⟩
  | @step u v w c rs hprev hedge ih =>
    obtain ⟨ws, hfa, hsum, hhead, hlast⟩ := ih
    have hys : ((u :: rs).reverse).getLast? = some u := by
      rw [List.getLast?_reverse]
      simp
    have hz := zipTail_concat ((u :: rs).reverse) u v hys
    have hrev : (v :: u :: rs).reverse = (u :: rs).reverse ++ [v] := by simp
    refine ⟨ws ++ [w], ?_, ?_, ?_, ?_⟩
    · rw [hrev, hz]
      exact List.rel_append hfa (List.Forall₂.cons hedge List.Forall₂.nil)
    · rw [List.sum_append, ← hsum]
      simp
    · rw [hrev, List.head?_append_of_ne_nil _ (by simp)]
      exact hhead
    · rw [hrev, List.getLast?_concat]
      simp

/-- A successful search returns a nonempty path. -/
theorem astar_nonempty (g : List (Nat × Nat × ℚ)) (h : Nat → ℚ) (s goal : Nat)
    (c : ℚ) (pth : List Nat) (hrun : astar g h s goal = some (c, pth)) : pth ≠ [] := by
  obtain ⟨rp, rfl, hpath, _⟩ := astar_sound g h s goal c pth hrun
  simpa using hpath.ne_nil

/-- Searching from a vertex to itself succeeds immediately with cost `0`
and the singleton path. -/
theorem astar_self (g : List (Nat × Nat × ℚ)) (h : Nat → ℚ) (s : Nat) :
    astar g h s s = some (0, [s]) := by
  rw [astar, astarFuel]
  show astarLoop g h s (g.length * g.length + 1 + 1) [(s, 0, [s])] = some (0, [s])
  rw [astarLoop]
  simp [pickMin]

/-- Reachability fails in an edgeless graph between distinct vertices. -/
theorem not_reach_of_nil {a b : Nat} (hne : a ≠ b) : ¬ GraphReach [] a b := by
  intro h
  induction h with
  | refl => exact hne rfl
  | tail h1 h2 ih =>
    obtain ⟨w, hw⟩ := h2
    simp at hw

/-- C3: `find_shortest_path` returns `(-1, [])` exactly when an endpoint is
missing from the vertex map; two known endpoints with no connecting path
yield `(0, [])`; and a known node to itself yields `(0, [x])`. -/
theorem c3_find_shortest_path_sentinels (r : Router) :
    (∀ (nfrom nto : Node) (alg : Algorithm) (hf : Option (Nat → ℚ)),
      find_shortest_path r nfrom nto alg hf = (-1, [])
        ↔ (r.getNodeIndex nfrom = none ∨ r.getNodeIndex nto = none))
    ∧ (∀ (nfrom nto : Node) (alg : Algorithm) (hf : Option (Nat → ℚ)) (fi ti : Nat),
        r.getNodeIndex nfrom = some fi → r.getNodeIndex nto = some ti →
        ¬ GraphReach r.gedges fi ti →
        find_shortest_path r nfrom nto alg hf = (0, []))
    ∧ (∀ (x : Node) (alg : Algorithm) (hf : Option (Nat → ℚ)) (xi : Nat),
        r.getNodeIndex x = some xi →
        find_shortest_path r x x alg hf = (0, [xi])) := by
  refine ⟨?_, ?_, ?_⟩
  · intro nfrom nto alg hf
    constructor
    · intro hres
      by_contra hok
      push_neg at hok
      obtain ⟨hf', ht'⟩ := hok
      obtain ⟨fi, hfi⟩ := Option.ne_none_iff_exists'.mp hf'
      obtain ⟨ti, hti⟩ := Option.ne_none_iff_exists'.mp ht'
      rw [find_shortest_path, hfi, hti] at hres
      have hres' : (astar r.gedges (hf.getD (fun _ => 0)) fi ti).getD (0, []) = (-1, []) := by
        cases alg <;> exact hres
      cases hrun : astar r.gedges (hf.getD (fun _ => 0)) fi ti with
      | none =>
        rw [hrun] at hres'
        simp only [Option.getD_none, Prod.mk.injEq] at hres'
        norm_num at hres'
      | some cp =>
        rw [hrun] at hres'
        obtain ⟨c, pth⟩ := cp
        have := astar_nonempty r.gedges (hf.getD (fun _ => 0)) fi ti c pth hrun
        simp only [Option.getD_some, Prod.mk.injEq] at hres'
        exact this hres'.2
    · intro hmiss
      rw [find_shortest_path]
      rcases hmiss with hm | hm
      · rw [hm]
      · rw [hm]
        cases r.getNodeIndex nfrom <;> rfl
  · intro nfrom nto alg hf fi ti hfi hti hreach
    rw [find_shortest_path, hfi, hti]
    cases hrun : astar r.gedges (hf.getD (fun _ => 0)) fi ti with
    | none => cases alg <;> simp [hrun]
    | some cp =>
      obtain ⟨c, pth⟩ := cp
      obtain ⟨rp, rfl, hpath, hhead⟩ :=
        astar_sound r.gedges (hf.getD (fun _ => 0)) fi ti c pth hrun
      exact absurd (hpath.reach hhead) hreach
  · intro x alg hf xi hxi
    rw [find_shortest_path, hxi]
    cases alg <;> simp [astar_self]

/-- Witness for C3: on the concrete routers, an unknown endpoint yields
`(-1, [])`, the disconnected known pair yields `(0, [])`, and a node to
itself yields `(0, [0])`. -/
theorem c3_find_shortest_path_sentinels_witness :
    find_shortest_path router0 nodeA nodeX Algorithm.Dijkstra none = (-1, [])
    ∧ find_shortest_path routerDisc nodeA nodeB Algorithm.Dijkstra none = (0, [])
    ∧ find_shortest_path routerDisc nodeA nodeA Algorithm.AStar none = (0, [0]) :=
  ⟨((c3_find_shortest_path_sentinels router0).1 nodeA nodeX Algorithm.Dijkstra none).mpr
      (Or.inr rfl),
    (c3_find_shortest_path_sentinels routerDisc).2.1 nodeA nodeB Algorithm.Dijkstra none 0 1
      rfl rfl (not_reach_of_nil (by decide)),
    (c3_find_shortest_path_sentinels routerDisc).2.2 nodeA Algorithm.AStar none 0 rfl⟩

/-- C4: whenever `find_shortest_path` returns a nonempty path, that path
starts at `from`, ends at `to`, every consecutive pair carries an edge of
the graph, and the returned cost is the sum of those edge weights. -/
theorem c4_path_cost_sound (r : Router) (nfrom nto : Node) (alg : Algorithm)
    (hf : Option (Nat → ℚ)) (c : ℚ) (p : List Nat)
    (hres : find_shortest_path r nfrom nto alg hf = (c, p)) (hne : p ≠ []) :
    ∃ fi ti, r.getNodeIndex nfrom = some fi ∧ r.getNodeIndex nto = some ti
      ∧ p.head? = some fi ∧ p.getLast? = some ti
      ∧ ∃ ws : List ℚ,
          List.Forall₂ (fun (uv : Nat × Nat) (w : ℚ) => (uv.1, uv.2, w) ∈ r.gedges)
            (p.zip p.tail) ws
          ∧ c = ws.sum := by
  rcases hfi : r.getNodeIndex nfrom with _ | fi <;> rcases hti : r.getNodeIndex nto with _ | ti
  · rw [find_shortest_path, hfi, hti] at hres
    exact absurd (congrArg Prod.snd hres : [] = p).symm hne
  · rw [find_shortest_path, hfi, hti] at hres
    exact absurd (congrArg Prod.snd hres : [] = p).symm hne
  · rw [find_shortest_path, hfi, hti] at hres
    exact absurd (congrArg Prod.snd hres : [] = p).symm hne
  · rw [find_shortest_path, hfi, hti] at hres
    have hres' : (astar r.gedges (hf.getD (fun _ => 0)) fi ti).getD (0, []) = (c, p) := by
      cases alg <;> exact hres
    cases hrun : astar r.gedges (hf.getD (fun _ => 0)) fi ti with
    | none =>
      rw [hrun] at hres'
      exact absurd (congrArg Prod.snd hres' : [] = p).symm hne
    | some cp =>
      obtain ⟨c0, p0⟩ := cp
      rw [hrun] at hres'
      rw [Option.getD_some, Prod.mk.injEq] at hres'
      obtain ⟨rfl, rfl⟩ := hres'
      obtain ⟨rp, rfl, hpath, hhead⟩ :=
        astar_sound r.gedges (hf.getD (fun _ => 0)) fi ti c0 p0 hrun
      obtain ⟨ws, hfa, hsum, hh, hl⟩ := hpath.to_forall₂
      exact ⟨fi, ti, rfl, rfl, hh, hl.trans hhead, ws, hfa, hsum⟩

/-- Witness for C4: on the concrete two-node router the returned direct
path `[0, 1]` starts at `A`, ends at `B`, and its single edge weight sums
to the returned cost `60`. -/
theorem c4_path_cost_sound_witness :
    ∃ fi ti, router0.getNodeIndex nodeA = some fi ∧ router0.getNodeIndex nodeB = some ti
      ∧ ([0, 1] : List Nat).head? = some fi ∧ ([0, 1] : List Nat).getLast? = some ti
      ∧ ∃ ws : List ℚ,
          List.Forall₂ (fun (uv : Nat × Nat) (w : ℚ) => (uv.1, uv.2, w) ∈ router0.gedges)
            (([0, 1] : List Nat).zip ([0, 1] : List Nat).tail) ws
          ∧ (60 : ℚ) = ws.sum :=
  c4_path_cost_sound router0 nodeA nodeB Algorithm.Dijkstra none 60 [0, 1] rfl (by decide)

/-- Vertex-list invariant of the router construction: uids are pairwise
distinct and every vertex value comes from the input slice. -/
def VertsOk (nodes vs : List Node) : Prop :=
  (vs.map Node.uid).Nodup ∧ ∀ v ∈ vs, v ∈ nodes

/-- The two outcomes of a vertex-map insertion. -/
theorem insertVert_fst (vs : List Node) (n : Node) :
    (insertVert vs n).1 = vs
    ∨ ((insertVert vs n).1 = vs ++ [n] ∧ ∀ m ∈ vs, nodeEq m n = false) := by
  rw [insertVert]
  cases hf : vs.findIdx? (fun m => nodeEq m n) with
  | some i => exact Or.inl rfl
  | none => exact Or.inr ⟨rfl, List.findIdx?_eq_none_iff.mp hf⟩

/-- Inserting a slice node preserves the vertex-list invariant. -/
theorem VertsOk.insert {nodes vs : List Node} {n : Node} (h : VertsOk nodes vs)
    (hn : n ∈ nodes) : VertsOk nodes (insertVert vs n).1 := by
  rcases insertVert_fst vs n with he | ⟨he, hall⟩
  · rw [he]
    exact h
  · rw [he]
    constructor
    · rw [List.map_append]
      refine h.1.append (by simp) ?_
      intro u hu hu2
      obtain ⟨v, hv, rfl⟩ := List.mem_map.mp hu
      simp only [List.map_cons, List.map_nil, List.mem_singleton] at hu2
      have hne := hall v hv
      rw [nodeEq, hu2] at hne
      simp at hne
    · intro v hv
      rcases List.mem_append.mp hv with hv | hv
      · exact h.2 v hv
      · rw [List.mem_singleton] at hv
        exact hv ▸ hn

/-- The edge phase of `Router::new` preserves the vertex-list invariant. -/
theorem routerEdgePhase_ok (nodes : List Node) :
    ∀ (es : List (Node × Node × ℚ)) (st : List Node × List (Nat × Nat × ℚ)),
      VertsOk nodes st.1 → (∀ e ∈ es, e.1 ∈ nodes ∧ e.2.1 ∈ nodes) →
      VertsOk nodes
        (es.foldl
          (fun (st : List Node × List (Nat × Nat × ℚ)) e =>
            let p1 := insertVert st.1 e.1
            let p2 := insertVert p1.1 e.2.1
            (p2.1, st.2 ++ [(p1.2, p2.2, e.2.2)])) st).1 := by
  intro es
  induction es with
  | nil =>
    intro st h _
    exact h
  | cons e es ih =>
    intro st h hes
    rw [List.foldl_cons]
    refine ih _ ?_ (fun x hx => hes x (List.mem_cons_of_mem _ hx))
    exact (h.insert (hes e (List.mem_cons_self _ _)).1).insert
      (hes e (List.mem_cons_self _ _)).2

/-- One step of the final node scan of `Router::new`. -/
def scanStep (vs : List Node) (n : Node) : List Node :=
  if vs.any (fun m => nodeEq m n) then vs else vs ++ [n]

/-- The scan step is the first component of a vertex-map insertion. -/
theorem scanStep_eq_insertVert (vs : List Node) (n : Node) :
    scanStep vs n = (insertVert vs n).1 := by
  rw [scanStep, insertVert]
  cases hf : vs.findIdx? (fun m => nodeEq m n) with
  | some i =>
    have : vs.any (fun m => nodeEq m n) = true := by
      rw [← List.findIdx?_isSome, hf]
      rfl
    rw [this]
    simp
  | none =>
    have : vs.any (fun m => nodeEq m n) = false := by
      rw [← List.findIdx?_isSome, hf]
      rfl
    rw [this]
    simp

/-- The final scan preserves the vertex-list invariant. -/
theorem scan_ok (nodes : List Node) :
    ∀ (ns vs : List Node), VertsOk nodes vs → (∀ n ∈ ns, n ∈ nodes) →
      VertsOk nodes (ns.foldl scanStep vs) := by
  intro ns
  induction ns with
  | nil =>
    intro vs h _
    exact h
  | cons n ns ih =>
    intro vs h hns
    rw [List.foldl_cons, scanStep_eq_insertVert]
    exact ih _ (h.insert (hns n (List.mem_cons_self _ _)))
      (fun x hx => hns x (List.mem_cons_of_mem _ hx))

/-- The final scan only ever appends. -/
theorem scan_mono : ∀ (ns vs : List Node) (v : Node), v ∈ vs → v ∈ ns.foldl scanStep vs := by
  intro ns
  induction ns with
  | nil =>
    intro vs v hv
    exact hv
  | cons n ns ih =>
    intro vs v hv
    rw [List.foldl_cons]
    refine ih _ v ?_
    rw [scanStep]
    by_cases hg : vs.any (fun m => nodeEq m n) = true
    · rw [if_pos hg]
      exact hv
    · rw [if_neg hg]
      exact List.mem_append_left _ hv

/-- After the final scan, every scanned node has a same-uid vertex. -/
theorem scan_covers : ∀ (ns vs : List Node) (n : Node), n ∈ ns →
    ∃ v ∈ ns.foldl scanStep vs, v.uid = n.uid := by
  intro ns
  induction ns with
  | nil =>
    intro vs n hn
    simp at hn
  | cons m ms ih =>
    intro vs n hn
    rcases List.mem_cons.mp hn with rfl | hn'
    · rw [List.foldl_cons]
      by_cases hg : vs.any (fun m' => nodeEq m' n) = true
      · obtain ⟨v, hv, hvn⟩ := List.any_eq_true.mp hg
        refine ⟨v, scan_mono ms _ v ?_, ?_⟩
        · rw [scanStep, if_pos hg]
          exact hv
        · rw [nodeEq] at hvn
          exact beq_iff_eq.mp hvn
      · refine ⟨n, scan_mono ms _ n ?_, rfl⟩
        rw [scanStep, if_neg hg]
        exact List.mem_append_right _ (List.mem_singleton.mpr rfl)
    · rw [List.foldl_cons]
      exact ih _ n hn'

/-- C6: for an input slice with pairwise-distinct uids, the router built by
`Router::new` has exactly one vertex per input site — isolated sites
included — so its vertex count equals the slice length, and every input
site has a same-uid vertex. -/
theorem c6_router_vertex_count (nodes : List Node) (constraint : ℚ)
    (constraintFn costFn : Node → Node → ℚ)
    (hn : (nodes.map Node.uid).Nodup) :
    (Router.new nodes constraint constraintFn costFn).get_node_count = nodes.length
    ∧ ∀ n ∈ nodes, ∃ v ∈ (Router.new nodes constraint constraintFn costFn).verts,
        v.uid = n.uid := by
  have hedges : ∀ e ∈ build_edges nodes constraint constraintFn costFn,
      e.1 ∈ nodes ∧ e.2.1 ∈ nodes := by
    rintro ⟨u, v, w⟩ he
    have hm := (mem_build_edges nodes constraint constraintFn costFn u v w).mp he
    exact ⟨hm.1, hm.2.1⟩
  have h1 := routerEdgePhase_ok nodes (build_edges nodes constraint constraintFn costFn)
    ([], []) ⟨by simp, by simp⟩ hedges
  have hverts : (Router.new nodes constraint constraintFn costFn).verts
      = nodes.foldl scanStep
          ((build_edges nodes constraint constraintFn costFn).foldl
            (fun (st : List Node × List (Nat × Nat × ℚ)) e =>
              let p1 := insertVert st.1 e.1
              let p2 := insertVert p1.1 e.2.1
              (p2.1, st.2 ++ [(p1.2, p2.2, e.2.2)])) ([], [])).1 := rfl
  have h2 := scan_ok nodes nodes _ h1 (fun n hn => hn)
  have hcov : ∀ n ∈ nodes,
      ∃ v ∈ (Router.new nodes constraint constraintFn costFn).verts, v.uid = n.uid := by
    intro n hmem
    rw [hverts]
    exact scan_covers nodes _ n hmem
  refine ⟨?_, hcov⟩
  rw [Router.get_node_count, hverts]
  set vs := nodes.foldl scanStep
    ((build_edges nodes constraint constraintFn costFn).foldl
      (fun (st : List Node × List (Nat × Nat × ℚ)) e =>
        let p1 := insertVert st.1 e.1
        let p2 := insertVert p1.1 e.2.1
        (p2.1, st.2 ++ [(p1.2, p2.2, e.2.2)])) ([], [])).1 with hvs
  have hsub1 : ∀ u ∈ vs.map Node.uid, u ∈ nodes.map Node.uid := by
    intro u hu
    obtain ⟨v, hv, rfl⟩ := List.mem_map.mp hu
    exact List.mem_map.mpr ⟨v, h2.2 v hv, rfl⟩
  have hsub2 : ∀ u ∈ nodes.map Node.uid, u ∈ vs.map Node.uid := by
    intro u hu
    obtain ⟨n, hmem, rfl⟩ := List.mem_map.mp hu
    obtain ⟨v, hv, hvu⟩ := hcov n hmem
    rw [hverts] at hv
    exact List.mem_map.mpr ⟨v, hv, hvu⟩
  have hfin : (vs.map Node.uid).toFinset = (nodes.map Node.uid).toFinset := by
    ext a
    simp only [List.mem_toFinset]
    exact ⟨hsub1 a, hsub2 a⟩
  have hlen : (vs.map Node.uid).length = (nodes.map Node.uid).length := by
    rw [← List.toFinset_card_of_nodup h2.1, ← List.toFinset_card_of_nodup hn, hfin]
  simpa using hlen

/-- Witness for C6: the concrete two-node slice has distinct uids and the
concrete router has exactly two vertices, one per site. -/
theorem c6_router_vertex_count_witness :
    (Router.new [nodeA, nodeB] 75 cost60 cost60).get_node_count = 2
    ∧ ∀ n ∈ [nodeA, nodeB],
        ∃ v ∈ (Router.new [nodeA, nodeB] 75 cost60 cost60).verts, v.uid = n.uid :=
  (c6_router_vertex_count [nodeA, nodeB] 75 cost60 cost60 (by decide))

/-- An emitted slot plan carries the slot's departure timestamp. -/
theorem processSlot_emit_departure (env : SlotEnv) (i : Nat) (p : FlightPlanData)
    (h : processSlot env i = some (Except.ok (some p))) :
    p.scheduledDeparture
      = some ⟨slotDepSecs env i, i32cast (u32cast env.earliest.nanos)⟩ := by
  simp only [processSlot] at h
  by_cases hts : timestampOk (slotDepSecs env i) (u32cast env.earliest.nanos) = false
  · rw [if_pos hts] at h
    simp at h
  · rw [if_neg hts] at h
    cases hdv : is_vertiport_available env.parseCal env.vertiportDepart (slotDepSecs env i)
        env.plans true with
    | none =>
      rw [hdv] at h
      simp at h
    | some dv =>
      rw [hdv] at h
      cases harr : is_vertiport_available env.parseCal env.vertiportArrive
          (slotDepSecs env i + ratTrunc env.blockMinutes * 60 - 10 * 60) env.plans false with
      | none =>
        rw [harr] at h
        simp at h
      | some av =>
        rw [harr] at h
        dsimp only [] at h
        by_cases hdvf : dv = false
        · rw [if_pos hdvf] at h
          simp at h
        · rw [if_neg hdvf] at h
          by_cases havf : av = false
          · rw [if_pos havf] at h
            simp at h
          · rw [if_neg havf] at h
            cases hveh : findAvailableVehicle env (slotDepSecs env i) env.vehicles with
            | none =>
              rw [hveh] at h
              simp at h
            | some vo =>
              rw [hveh] at h
              cases vo with
              | none => simp at h
              | some v =>
                simp only [Option.some.injEq, Except.ok.injEq] at h
                rw [← h]
                rfl

/-- A successful slot loop emits, in order, the plans of a sublist of the
processed slots, appended to the accumulator. -/
theorem slotLoop_ok_spec (env : SlotEnv) :
    ∀ (slots : List Nat) (acc l : List FlightPlanData),
      slotLoop env slots acc = some (Except.ok l) →
      ∃ (js : List Nat) (em : List FlightPlanData), js.Sublist slots ∧ l = acc ++ em
        ∧ List.Forall₂ (fun j p => processSlot env j = some (Except.ok (some p))) js em := by
  intro slots
  induction slots with
  | nil =>
    intro acc l h
    rw [slotLoop] at h
    simp only [Option.some.injEq, Except.ok.injEq] at h
    exact ⟨[], [], List.Sublist.refl _, by simp [h], List.Forall₂.nil⟩
  | cons i rest ih =>
    intro acc l h
    rw [slotLoop] at h
    split at h
    next => simp at h
    next e heq => simp at h
    next heq =>
      obtain ⟨js, em, hsub, hl, hfa⟩ := ih acc l h
      exact ⟨js, em, hsub.cons i, hl, hfa⟩
    next p heq =>
      obtain ⟨js, em, hsub, hl, hfa⟩ := ih (acc ++ [p]) l h
      refine ⟨i :: js, p :: em, hsub.cons₂ i, ?_, List.Forall₂.cons heq hfa⟩
      rw [hl, List.append_assoc]
      rfl

/-- The slot count is capped at ten. -/
theorem num_flight_options_toNat_le (w b : ℚ) : (num_flight_options w b).toNat ≤ 10 := by
  rw [num_flight_options]
  split
  · rfl
  next hle =>
    rw [Int.toNat_le]
    simp only [MAX_RETURNED_FLIGHT_PLANS, not_lt] at hle
    exact le_trans hle (by norm_num)

/-- C1 amended: for every successful `get_possible_flights` call, at most
ten plans are returned, and they correspond in order to a strictly
increasing subset of the `N = min(MAX_RESULTS, 1 + floor((W - B) / GAP))`
candidate slots, where `B` is the flight-time estimate (which already
contains both ground blocks) plus the two ground blocks again; the plan of
slot `j` departs at `earliest + j · 5 min`. -/
theorem c1_slot_schedule (parseCal : String → Option Calendar) (st : RState)
    (vd va : Vertiport) (e l : Timestamp) (vehicles : List Vehicle)
    (plans : List FlightPlan) (fps : List FlightPlanData)
    (h : get_possible_flights parseCal st vd va (some e) (some l) vehicles plans
      = some (Except.ok fps)) :
    fps.length ≤ 10
    ∧ ∃ (nfrom nto : Node) (locs : List Location) (cost : ℚ) (js : List Nat),
        get_node_by_id st.nodes vd.id = some (Except.ok nfrom)
        ∧ get_node_by_id st.nodes va.id = some (Except.ok nto)
        ∧ get_route st nfrom nto = some (Except.ok (locs, cost))
        ∧ js.Sublist (List.range (num_flight_options (windowMinutes e l)
            (estimate_flight_time_minutes cost + LOADING_AND_TAKEOFF_TIME_MIN
              + LANDING_AND_UNLOADING_TIME_MIN)).toNat)
        ∧ js.Pairwise (· < ·)
        ∧ List.Forall₂ (fun (j : Nat) (p : FlightPlanData) =>
            p.scheduledDeparture
              = some ⟨e.seconds + (j : Int) * 60 * 5, i32cast (u32cast e.nanos)⟩) js fps := by
  simp only [get_possible_flights] at h
  split at h
  next => simp at h
  next =>
    split at h
    next => simp at h
    next => simp at h
    next nfrom hdep =>
      split at h
      next => simp at h
      next => simp at h
      next nto harr =>
        split at h
        next => simp at h
        next => simp at h
        next locs cost hroute =>
          split at h
          next => simp at h
          next hempty =>
            split at h
            next => simp at h
            next hwindow =>
              split at h
              next => simp at h
              next e' heq => simp at h
              next fps0 hloop =>
                split at h
                next => simp at h
                next hne =>
                  simp only [Option.some.injEq, Except.ok.injEq] at h
                  subst h
                  obtain ⟨js, em, hsub, hl, hfa⟩ :=
                    slotLoop_ok_spec _ _ [] fps0 hloop
                  simp only [List.nil_append] at hl
                  obtain rfl := hl
                  constructor
                  · calc fps0.length = js.length := hfa.length_eq.symm
                      _ ≤ _ := hsub.length_le
                      _ = _ := List.length_range _
                      _ ≤ 10 := num_flight_options_toNat_le _ _
                  · refine ⟨nfrom, nto, locs, cost, js, hdep, harr, hroute, hsub,
                      List.Pairwise.sublist hsub (List.pairwise_lt_range _), ?_⟩
                    refine hfa.imp ?_
                    intro j p hp
                    exact processSlot_emit_departure _ j p hp

/-- The slot count C1 claims, following the claim's words:
`N = min(MAX_RESULTS, 1 + floor((W - T_total) / FLIGHT_PLAN_GAP))` with
`T_total = T_load + (d / 60 km/h) · 60 + T_unload`. -/
def c1ClaimedSlotCount (w d : ℚ) : Int :=
  min MAX_RETURNED_FLIGHT_PLANS
    (1 + Rat.floor ((w - (LOADING_AND_TAKEOFF_TIME_MIN + d / AVG_SPEED_KMH * 60
      + LANDING_AND_UNLOADING_TIME_MIN)) / FLIGHT_PLAN_GAP_MINUTES))

/-- C1 counterexample: a successful concrete call with window 105 min and
route cost 60 km considers `num_flight_options = 2` slots (the code blocks
`estimate + 20 = 100` minutes) and emits 2 plans, but the claim's formula
with `T_total = 10 + 60 + 10 = 80` says 6 slots are considered. -/
theorem c1_counterexample_slot_count :
    get_possible_flights parseTrue st0 vpA vpB (some ⟨0, 0⟩) (some ⟨6300, 0⟩) [veh1] []
      = some (Except.ok [planOut0, planOut1])
    ∧ windowMinutes ⟨0, 0⟩ ⟨6300, 0⟩ = 105
    ∧ (find_shortest_path router0 nodeA nodeB Algorithm.Dijkstra none).1 = 60
    ∧ num_flight_options 105 (estimate_flight_time_minutes 60
        + LOADING_AND_TAKEOFF_TIME_MIN + LANDING_AND_UNLOADING_TIME_MIN) = 2
    ∧ c1ClaimedSlotCount 105 60 = 6
    ∧ (2 : Int) ≠ 6 :=
  ⟨rfl, by decide, rfl, by decide, by decide, by decide⟩

/-- Witness for C1: the concrete successful call emits two plans at slots 0
and 1 of the two candidate slots, departing at `earliest` and
`earliest + 5 min`. -/
theorem c1_slot_schedule_witness :
    ([planOut0, planOut1] : List FlightPlanData).length ≤ 10
    ∧ ∃ (nfrom nto : Node) (locs : List Location) (cost : ℚ) (js : List Nat),
        get_node_by_id st0.nodes vpA.id = some (Except.ok nfrom)
        ∧ get_node_by_id st0.nodes vpB.id = some (Except.ok nto)
        ∧ get_route st0 nfrom nto = some (Except.ok (locs, cost))
        ∧ js.Sublist (List.range (num_flight_options
            (windowMinutes ⟨0, 0⟩ ⟨6300, 0⟩)
            (estimate_flight_time_minutes cost + LOADING_AND_TAKEOFF_TIME_MIN
              + LANDING_AND_UNLOADING_TIME_MIN)).toNat)
        ∧ js.Pairwise (· < ·)
        ∧ List.Forall₂ (fun (j : Nat) (p : FlightPlanData) =>
            p.scheduledDeparture
              = some ⟨(0 : Int) + (j : Int) * 60 * 5, i32cast (u32cast 0)⟩)
            js [planOut0, planOut1] :=
  c1_slot_schedule parseTrue st0 vpA vpB ⟨0, 0⟩ ⟨6300, 0⟩ [veh1] [] [planOut0, planOut1] rfl

/-- A slot either errs on an invalid timestamp, or ends in a panic or a
skip/emit — never in any other error. -/
theorem processSlot_trichotomy (env : SlotEnv) (i : Nat) :
    (timestampOk (slotDepSecs env i) (u32cast env.earliest.nanos) = false
      ∧ processSlot env i = some (Except.error "Invalid departure_time"))
    ∨ (timestampOk (slotDepSecs env i) (u32cast env.earliest.nanos) ≠ false
      ∧ (processSlot env i = none ∨ ∃ x, processSlot env i = some (Except.ok x))) := by
  by_cases hts : timestampOk (slotDepSecs env i) (u32cast env.earliest.nanos) = false
  · left
    refine ⟨hts, ?_⟩
    simp only [processSlot, if_pos hts]
  · right
    refine ⟨hts, ?_⟩
    simp only [processSlot, if_neg hts]
    cases hdv : is_vertiport_available env.parseCal env.vertiportDepart (slotDepSecs env i)
        env.plans true with
    | none => exact Or.inl rfl
    | some dv =>
      cases harr : is_vertiport_available env.parseCal env.vertiportArrive
          (slotDepSecs env i + ratTrunc env.blockMinutes * 60 - 10 * 60) env.plans false with
      | none => exact Or.inl rfl
      | some av =>
        dsimp only []
        by_cases hdvf : dv = false
        · rw [if_pos hdvf]
          exact Or.inr ⟨none, rfl⟩
        · rw [if_neg hdvf]
          by_cases havf : av = false
          · rw [if_pos havf]
            exact Or.inr ⟨none, rfl⟩
          · rw [if_neg havf]
            cases hveh : findAvailableVehicle env (slotDepSecs env i) env.vehicles with
            | none => exact Or.inl rfl
            | some vo =>
              cases vo with
              | none => exact Or.inr ⟨none, rfl⟩
              | some v => exact Or.inr ⟨_, rfl⟩

/-- A slot errs exactly on an invalid timestamp, always with the
`Invalid departure_time` message. -/
theorem processSlot_error_iff (env : SlotEnv) (i : Nat) (m : String) :
    processSlot env i = some (Except.error m)
      ↔ (timestampOk (slotDepSecs env i) (u32cast env.earliest.nanos) = false
          ∧ m = "Invalid departure_time") := by
  rcases processSlot_trichotomy env i with ⟨hts, he⟩ | ⟨hts, hr⟩
  · rw [he]
    constructor
    · intro h
      simp only [Option.some.injEq, Except.error.injEq] at h
      exact ⟨hts, h.symm⟩
    · rintro ⟨-, rfl⟩
      rfl
  · constructor
    · intro h
      rcases hr with hr | ⟨x, hr⟩ <;> rw [hr] at h <;> simp at h
    · rintro ⟨hts', -⟩
      exact absurd hts' hts

/-- The error-witness structure of a slot list: some slot errs and every
earlier slot ended in a skip or an emission. -/
def slotErrorWitness (env : SlotEnv) (m : String) : List Nat → Prop
  | [] => False
  | i :: rest =>
    processSlot env i = some (Except.error m)
    ∨ ((∃ x, processSlot env i = some (Except.ok x)) ∧ slotErrorWitness env m rest)

/-- Every slot of the list is skipped without a panic or an error. -/
def slotsAllSkip (env : SlotEnv) : List Nat → Prop
  | [] => True
  | i :: rest => processSlot env i = some (Except.ok none) ∧ slotsAllSkip env rest

/-- The slot loop errs with `m` exactly on an error witness. -/
theorem slotLoop_error_iff (env : SlotEnv) (m : String) :
    ∀ (slots : List Nat) (acc : List FlightPlanData),
      slotLoop env slots acc = some (Except.error m) ↔ slotErrorWitness env m slots := by
  intro slots
  induction slots with
  | nil =>
    intro acc
    rw [slotLoop, slotErrorWitness]
    simp
  | cons i rest ih =>
    intro acc
    rw [slotLoop, slotErrorWitness]
    cases hps : processSlot env i with
    | none =>
      simp only []
      constructor
      · intro h
        simp at h
      · rintro (he | ⟨⟨x, hx⟩, -⟩)
        · simp at he
        · simp at hx
    | some r =>
      cases r with
      | error e =>
        simp only []
        constructor
        · intro h
          simp only [Option.some.injEq, Except.error.injEq] at h
          exact Or.inl (by rw [h])
        · rintro (he | ⟨⟨x, hx⟩, -⟩)
          · simp only [Option.some.injEq, Except.error.injEq] at he
            rw [he]
          · simp at hx
      | ok x =>
        cases x with
        | none =>
          simp only []
          rw [ih acc]
          constructor
          · intro h
            exact Or.inr ⟨⟨none, rfl⟩, h⟩
          · rintro (he | ⟨-, hw⟩)
            · simp at he
            · exact hw
        | some p =>
          simp only []
          rw [ih (acc ++ [p])]
          constructor
          · intro h
            exact Or.inr ⟨⟨some p, rfl⟩, h⟩
          · rintro (he | ⟨-, hw⟩)
            · simp at he
            · exact hw

/-- With an empty accumulator the slot loop returns the empty plan list
exactly when every slot is skipped. -/
theorem slotLoop_nil_iff (env : SlotEnv) :
    ∀ (slots : List Nat),
      slotLoop env slots [] = some (Except.ok []) ↔ slotsAllSkip env slots := by
  intro slots
  induction slots with
  | nil =>
    rw [slotLoop, slotsAllSkip]
    simp
  | cons i rest ih =>
    rw [slotLoop, slotsAllSkip]
    cases hps : processSlot env i with
    | none =>
      simp only []
      constructor
      · intro h
        simp at h
      · rintro ⟨he, -⟩
        simp at he
    | some r =>
      cases r with
      | error e =>
        simp only []
        constructor
        · intro h
          simp at h
        · rintro ⟨he, -⟩
          simp at he
      | ok x =>
        cases x with
        | none =>
          simp only []
          rw [ih]
          constructor
          · intro h
            exact ⟨by trivial, h⟩
          · rintro ⟨-, hw⟩
            exact hw
        | some p =>
          simp only []
          constructor
          · intro h
            obtain ⟨js, em, -, hl, -⟩ := slotLoop_ok_spec env rest [p] [] h
            simp at hl
          · rintro ⟨he, -⟩
            simp at he

/-- The error witness over a contiguous slot range, elementwise: some slot
has an invalid timestamp and all earlier slots end in skip or emission. -/
theorem slotErrorWitness_range' (env : SlotEnv) (m : String) :
    ∀ (n a : Nat),
      slotErrorWitness env m (List.range' a n)
        ↔ (m = "Invalid departure_time" ∧ ∃ i, a ≤ i ∧ i < a + n
            ∧ timestampOk (slotDepSecs env i) (u32cast env.earliest.nanos) = false
            ∧ ∀ j, a ≤ j → j < i → ∃ x, processSlot env j = some (Except.ok x)) := by
  intro n
  induction n with
  | zero =>
    intro a
    rw [show List.range' a 0 = [] from rfl, slotErrorWitness]
    constructor
    · intro h
      exact h.elim
    · rintro ⟨-, i, h1, h2, -⟩
      omega
  | succ n ih =>
    intro a
    rw [List.range'_succ, slotErrorWitness]
    constructor
    · rintro (he | ⟨⟨x, hx⟩, hw⟩)
      · obtain ⟨htsa, hm⟩ := (processSlot_error_iff env a m).mp he
        exact ⟨hm, a, le_refl a, by omega, htsa, fun j hj1 hj2 => absurd hj2 (by omega)⟩
      · obtain ⟨hm, i, h1, h2, hts, hall⟩ := (ih (a + 1)).mp hw
        refine ⟨hm, i, by omega, by omega, hts, fun j hj1 hj2 => ?_⟩
        by_cases hja : j = a
        · exact hja ▸ ⟨x, hx⟩
        · exact hall j (by omega) hj2
    · rintro ⟨hm, i, h1, h2, hts, hall⟩
      by_cases hia : i = a
      · exact Or.inl ((processSlot_error_iff env a m).mpr ⟨hia ▸ hts, hm⟩)
      · refine Or.inr ⟨hall a (le_refl a) (by omega), (ih (a + 1)).mpr
          ⟨hm, i, by omega, by omega, hts, fun j hj1 hj2 => hall j (by omega) hj2⟩⟩

/-- All-skip over a contiguous slot range, elementwise. -/
theorem slotsAllSkip_range' (env : SlotEnv) :
    ∀ (n a : Nat), slotsAllSkip env (List.range' a n)
      ↔ ∀ i, a ≤ i → i < a + n → processSlot env i = some (Except.ok none) := by
  intro n
  induction n with
  | zero =>
    intro a
    rw [show List.range' a 0 = [] from rfl, slotsAllSkip]
    constructor
    · intro _ i h1 h2
      exact absurd h2 (by omega)
    · intro _
      trivial
  | succ n ih =>
    intro a
    rw [List.range'_succ, slotsAllSkip, ih (a + 1)]
    constructor
    · rintro ⟨hpa, hrest⟩ i h1 h2
      by_cases hia : i = a
      · exact hia ▸ hpa
      · exact hrest i (by omega) (by omega)
    · intro hall
      exact ⟨hall a (le_refl a) (by omega),
        fun i h1 h2 => hall i (by omega) (by omega)⟩

/-- Mapping an in-bounds index path to locations never panics, and keeps
the length. -/
theorem route_locations_total (r : Router) :
    ∀ p : List Nat, (∀ v ∈ p, v < r.verts.length) →
      ∃ locs, route_locations r p = some locs ∧ locs.length = p.length := by
  intro p
  induction p with
  | nil =>
    intro _
    exact ⟨[], rfl, rfl⟩
  | cons i is ih =>
    intro hv
    obtain ⟨locs, hl, hlen⟩ := ih (fun v hv' => hv v (List.mem_cons_of_mem _ hv'))
    have hi : i < r.verts.length := hv i (List.mem_cons_self _ _)
    have hget : r.nodeAt i = some (r.verts.get ⟨i, hi⟩) := List.get?_eq_get hi
    refine ⟨(r.verts.get ⟨i, hi⟩).location :: locs, ?_, by simp [hlen]⟩
    rw [route_locations, hget, hl]

/-- Every vertex of a returned shortest path is a graph index, provided
edge targets are. -/
theorem find_path_vertices (r : Router)
    (hr : ∀ e ∈ r.gedges, e.2.1 < r.verts.length) (nfrom nto : Node) :
    ∀ v ∈ (find_shortest_path r nfrom nto Algorithm.Dijkstra none).2,
      v < r.verts.length := by
  rcases hfi : r.getNodeIndex nfrom with _ | fi <;> rcases hti : r.getNodeIndex nto with _ | ti
  · rw [find_shortest_path, hfi, hti]
    simp
  · rw [find_shortest_path, hfi, hti]
    simp
  · rw [find_shortest_path, hfi, hti]
    simp
  · rw [find_shortest_path, hfi, hti]
    dsimp only []
    obtain ⟨hflt, -, -⟩ := List.findIdx?_eq_some_iff_getElem.mp hfi
    cases hrun : astar r.gedges ((none : Option (Nat → ℚ)).getD (fun _ => 0)) fi ti with
    | none => simp
    | some cp =>
      obtain ⟨c, pth⟩ := cp
      obtain ⟨rp, rfl, hpath, -⟩ :=
        astar_sound r.gedges ((none : Option (Nat → ℚ)).getD (fun _ => 0)) fi ti c pth hrun
      intro v hv
      simp only [Option.getD_some] at hv
      exact hpath.vertex_lt hflt hr v (List.mem_reverse.mp hv)

/-- With a well-formed router in the cell, `get_route` succeeds, returning
the path's cost and a location list that is empty exactly when the path
is. -/
theorem get_route_ok (st : RState) (r : Router) (hst : st.router = some r)
    (hr : ∀ e ∈ r.gedges, e.2.1 < r.verts.length) (nfrom nto : Node) :
    ∃ locs, get_route st nfrom nto
        = some (Except.ok (locs, (find_shortest_path r nfrom nto Algorithm.Dijkstra none).1))
      ∧ (locs = [] ↔ (find_shortest_path r nfrom nto Algorithm.Dijkstra none).2 = []) := by
  obtain ⟨locs, hl, hlen⟩ := route_locations_total r
    (find_shortest_path r nfrom nto Algorithm.Dijkstra none).2
    (find_path_vertices r hr nfrom nto)
  refine ⟨locs, ?_, ?_⟩
  · rw [get_route, hst]
    dsimp only []
    rw [hl]
  · rw [← List.length_eq_zero, ← List.length_eq_zero, hlen]

/-- Node lookup errs exactly when the cell is set and no node has the id,
always with the `Node not found` message. -/
theorem get_node_by_id_error_iff (cell : Option (List Node)) (id msg : String) :
    get_node_by_id cell id = some (Except.error msg)
      ↔ ∃ ns, cell = some ns ∧ ns.find? (fun n => n.uid == id) = none
          ∧ msg = "Node not found by id: " ++ id := by
  cases cell with
  | none =>
    rw [get_node_by_id]
    simp
  | some ns =>
    rw [get_node_by_id]
    cases hf : ns.find? (fun n => n.uid == id) with
    | none =>
      constructor
      · intro h
        simp only [Option.some.injEq, Except.error.injEq] at h
        exact ⟨ns, rfl, hf, h.symm⟩
      · rintro ⟨ns', hns, hf', hmsg⟩
        simp only [Option.some.injEq] at hns
        rw [hmsg]
    | some n =>
      constructor
      · intro h
        simp at h
      · rintro ⟨ns', hns, hf', -⟩
        simp only [Option.some.injEq] at hns
        subst hns
        rw [hf] at hf'
        simp at hf'

/-- Node lookup succeeds exactly on the first node carrying the id. -/
theorem get_node_by_id_ok_iff (cell : Option (List Node)) (id : String) (nd : Node) :
    get_node_by_id cell id = some (Except.ok nd)
      ↔ ∃ ns, cell = some ns ∧ ns.find? (fun n => n.uid == id) = some nd := by
  cases cell with
  | none =>
    rw [get_node_by_id]
    simp
  | some ns =>
    rw [get_node_by_id]
    cases hf : ns.find? (fun n => n.uid == id) with
    | none =>
      constructor
      · intro h
        simp at h
      · rintro ⟨ns', hns, hf'⟩
        simp only [Option.some.injEq] at hns
        subst hns
        rw [hf] at hf'
        simp at hf'
    | some n =>
      constructor
      · intro h
        simp only [Option.some.injEq, Except.ok.injEq] at h
        exact ⟨ns, rfl, by rw [hf, h]⟩
      · rintro ⟨ns', hns, hf'⟩
        simp only [Option.some.injEq] at hns
        subst hns
        rw [hf] at hf'
        simp only [Option.some.injEq] at hf'
        rw [hf']

/-- With the router cell set, `get_route` never returns an error. -/
theorem get_route_no_error (st : RState) (r : Router) (hst : st.router = some r)
    (nfrom nto : Node) (msg : String) :
    get_route st nfrom nto ≠ some (Except.error msg) := by
  rw [get_route, hst]
  dsimp only []
  cases route_locations r (find_shortest_path r nfrom nto Algorithm.Dijkstra none).2 <;> simp

/-- Inversion of a successful `get_route`: the cost is the shortest-path
cost and the locations come from the path. -/
theorem get_route_ok_inv (st : RState) (r : Router) (hst : st.router = some r)
    (nfrom nto : Node) (locs : List Location) (cost : ℚ)
    (h : get_route st nfrom nto = some (Except.ok (locs, cost))) :
    cost = (find_shortest_path r nfrom nto Algorithm.Dijkstra none).1
    ∧ route_locations r (find_shortest_path r nfrom nto Algorithm.Dijkstra none).2
        = some locs := by
  rw [get_route, hst] at h
  dsimp only [] at h
  cases hrl : route_locations r (find_shortest_path r nfrom nto Algorithm.Dijkstra none).2 with
  | none =>
    rw [hrl] at h
    simp at h
  | some ls =>
    rw [hrl] at h
    simp only [Option.some.injEq, Except.ok.injEq, Prod.mk.injEq] at h
    exact ⟨h.2.symm, by rw [h.1]⟩

/-- A successful location mapping keeps the path length. -/
theorem route_locations_length (r : Router) :
    ∀ (p : List Nat) (locs : List Location), route_locations r p = some locs →
      locs.length = p.length := by
  intro p
  induction p with
  | nil =>
    intro locs h
    rw [route_locations] at h
    simp only [Option.some.injEq] at h
    rw [← h]
    rfl
  | cons i is ih =>
    intro locs h
    rw [route_locations] at h
    cases hn : r.nodeAt i with
    | none =>
      rw [hn] at h
      simp at h
    | some nd =>
      rw [hn] at h
      cases hrest : route_locations r is with
      | none =>
        rw [hrest] at h
        simp at h
      | some rest =>
        rw [hrest] at h
        simp only [Option.some.injEq] at h
        rw [← h]
        simp [ih rest hrest]

/-- The amended C2 error ladder, in the claim's check order: missing
timestamps, uninitialized router, unknown departure site, unknown arrival
site, empty route, window too small, a slot timestamp chrono rejects
(preceded only by non-panicking slots), and finally no feasible slot — each
with its distinct message. -/
def c2Chain (parseCal : String → Option Calendar) (st : RState) (vd va : Vertiport)
    (eo lo : Option Timestamp) (vehicles : List Vehicle) (plans : List FlightPlan)
    (m : String) : Prop :=
  ((eo = none ∨ lo = none)
    ∧ m = "Both earliest departure and latest arrival time must be specified")
  ∨ ∃ e l, eo = some e ∧ lo = some l
    ∧ ( (st.router = none ∧ m = "Router not initialized")
      ∨ ∃ r, st.router = some r
        ∧ ( (∃ ns, st.nodes = some ns ∧ ns.find? (fun n => n.uid == vd.id) = none
              ∧ m = "Node not found by id: " ++ vd.id)
          ∨ ∃ ns nfrom, st.nodes = some ns
              ∧ ns.find? (fun n => n.uid == vd.id) = some nfrom
            ∧ ( (ns.find? (fun n => n.uid == va.id) = none
                  ∧ m = "Node not found by id: " ++ va.id)
              ∨ ∃ nto, ns.find? (fun n => n.uid == va.id) = some nto
                ∧ ( ((find_shortest_path r nfrom nto Algorithm.Dijkstra none).2 = []
                      ∧ m = "Route between vertiports not found")
                  ∨ (find_shortest_path r nfrom nto Algorithm.Dijkstra none).2 ≠ []
                    ∧ ∃ b w env,
                        b = estimate_flight_time_minutes
                              (find_shortest_path r nfrom nto Algorithm.Dijkstra none).1
                            + LOADING_AND_TAKEOFF_TIME_MIN + LANDING_AND_UNLOADING_TIME_MIN
                        ∧ w = windowMinutes e l
                        ∧ env = SlotEnv.mk parseCal vd va e b vehicles plans
                        ∧ ( (w - b < 0 ∧ m = "Time window too small to schedule flight")
                          ∨ ¬(w - b < 0)
                            ∧ ( (m = "Invalid departure_time"
                                  ∧ ∃ i, i < (num_flight_options w b).toNat
                                    ∧ timestampOk (slotDepSecs env i) (u32cast e.nanos) = false
                                    ∧ ∀ j, j < i →
                                        ∃ x, processSlot env j = some (Except.ok x))
                              ∨ ((∀ i, i < (num_flight_options w b).toNat →
                                    processSlot env i = some (Except.ok none))
                                  ∧ m = "No flight plans found (deadhead flights not implemented)")))))))

/-- Forward half of C2: every error of `get_possible_flights` is explained
by the ladder. -/
theorem c2_chain_of_error (parseCal : String → Option Calendar) (st : RState)
    (vd va : Vertiport) (eo lo : Option Timestamp) (vehicles : List Vehicle)
    (plans : List FlightPlan) (m : String)
    (h : get_possible_flights parseCal st vd va eo lo vehicles plans
      = some (Except.error m)) :
    c2Chain parseCal st vd va eo lo vehicles plans m := by
  cases eo with
  | none =>
    rw [c2Chain]
    left
    refine ⟨Or.inl rfl, ?_⟩
    have hmsg : (some (Except.error
        "Both earliest departure and latest arrival time must be specified")
          : Option (Except String (List FlightPlanData)))
        = some (Except.error m) := by
      rw [← h]
      cases lo <;> rfl
    simp only [Option.some.injEq, Except.error.injEq] at hmsg
    exact hmsg.symm
  | some e =>
    cases lo with
    | none =>
      rw [c2Chain]
      left
      refine ⟨Or.inr rfl, ?_⟩
      have hmsg : (some (Except.error
          "Both earliest departure and latest arrival time must be specified")
            : Option (Except String (List FlightPlanData)))
          = some (Except.error m) := by
        rw [← h]
        rfl
      simp only [Option.some.injEq, Except.error.injEq] at hmsg
      exact hmsg.symm
    | some l =>
      rw [c2Chain]
      right
      refine ⟨e, l, rfl, rfl, ?_⟩
      simp only [get_possible_flights] at h
      split at h
      next hrt =>
        simp only [Option.some.injEq, Except.error.injEq] at h
        left
        refine ⟨?_, h.symm⟩
        cases hsr : st.router with
        | none => rfl
        | some r =>
          rw [is_router_initialized, hsr] at hrt
          simp at hrt
      next hrt =>
        right
        have hne : st.router ≠ none := by
          rw [is_router_initialized] at hrt
          simpa using hrt
        obtain ⟨r, hst⟩ := Option.ne_none_iff_exists'.mp hne
        refine ⟨r, hst, ?_⟩
        split at h
        next => simp at h
        next msg hdep =>
          simp only [Option.some.injEq, Except.error.injEq] at h
          obtain ⟨ns, hns, hfind, hmsg⟩ := (get_node_by_id_error_iff _ _ _).mp hdep
          left
          exact ⟨ns, hns, hfind, by rw [← h, hmsg]⟩
        next nfrom hdep =>
          obtain ⟨ns, hns, hfromfind⟩ := (get_node_by_id_ok_iff _ _ _).mp hdep
          right
          refine ⟨ns, nfrom, hns, hfromfind, ?_⟩
          split at h
          next => simp at h
          next msg harr =>
            simp only [Option.some.injEq, Except.error.injEq] at h
            obtain ⟨ns', hns', hfind', hmsg'⟩ := (get_node_by_id_error_iff _ _ _).mp harr
            rw [hns] at hns'
            simp only [Option.some.injEq] at hns'
            subst hns'
            left
            exact ⟨hfind', by rw [← h, hmsg']⟩
          next nto harr =>
            obtain ⟨ns', hns', htofind⟩ := (get_node_by_id_ok_iff _ _ _).mp harr
            rw [hns] at hns'
            simp only [Option.some.injEq] at hns'
            subst hns'
            right
            refine ⟨nto, htofind, ?_⟩
            split at h
            next => simp at h
            next msg hroute => exact absurd hroute (get_route_no_error st r hst _ _ _)
            next locs cost hroute =>
              obtain ⟨hcost, hlocs⟩ := get_route_ok_inv st r hst nfrom nto locs cost hroute
              have hlen := route_locations_length r _ locs hlocs
              split at h
              next hempty =>
                left
                simp only [Option.some.injEq, Except.error.injEq] at h
                refine ⟨?_, h.symm⟩
                have hl0 : locs = [] := List.isEmpty_iff.mp hempty
                rw [hl0] at hlen
                exact (List.length_eq_zero.mp hlen.symm)
              next hempty =>
                right
                constructor
                · intro hp
                  rw [hp] at hlen
                  simp only [List.length_nil] at hlen
                  exact hempty (by rw [List.isEmpty_iff, ← List.length_eq_zero, hlen])
                · rw [hcost] at h
                  refine ⟨_, _, _, rfl, rfl, rfl, ?_⟩
                  split at h
                  next hwin =>
                    simp only [Option.some.injEq, Except.error.injEq] at h
                    exact Or.inl ⟨hwin, h.symm⟩
                  next hwin =>
                    refine Or.inr ⟨hwin, ?_⟩
                    split at h
                    next => simp at h
                    next msg hloop =>
                      simp only [Option.some.injEq, Except.error.injEq] at h
                      subst h
                      left
                      rw [List.range_eq_range'] at hloop
                      obtain ⟨hm6, i, -, hi2, hts, hall⟩ :=
                        (slotErrorWitness_range' _ _ _ 0).mp
                          ((slotLoop_error_iff _ _ _ _).mp hloop)
                      exact ⟨hm6, i, by omega, hts, fun j hj => hall j (by omega) hj⟩
                    next fps0 hloop =>
                      split at h
                      next hne0 =>
                        simp only [Option.some.injEq, Except.error.injEq] at h
                        have hfps0 : fps0 = [] := List.isEmpty_iff.mp hne0
                        subst hfps0
                        right
                        refine ⟨?_, h.symm⟩
                        intro i hi
                        have hskip := (slotLoop_nil_iff _ _).mp hloop
                        rw [List.range_eq_range'] at hskip
                        exact (slotsAllSkip_range' _ _ 0).mp hskip i (by omega) (by omega)
                      next => simp at h

/-- The seven error-message templates of `get_possible_flights`, in checking
order (`Node not found by id: ` is the common prefix of both lookup
messages). -/
def c2Messages : List String :=
  ["Both earliest departure and latest arrival time must be specified",
   "Router not initialized",
   "Node not found by id: ",
   "Route between vertiports not found",
   "Time window too small to schedule flight",
   "Invalid departure_time",
   "No flight plans found (deadhead flights not implemented)"]

/-- Backward half of C2: each rung of the ladder forces the corresponding
error, provided every stored router keeps its edge targets in bounds (as
`Router.new` guarantees). -/
theorem c2_error_of_chain (parseCal : String → Option Calendar) (st : RState)
    (vd va : Vertiport) (eo lo : Option Timestamp) (vehicles : List Vehicle)
    (plans : List FlightPlan) (m : String)
    (hrwf : ∀ r, st.router = some r → ∀ e ∈ r.gedges, e.2.1 < r.verts.length)
    (h : c2Chain parseCal st vd va eo lo vehicles plans m) :
    get_possible_flights parseCal st vd va eo lo vehicles plans
      = some (Except.error m) := by
  rw [c2Chain] at h
  rcases h with ⟨hmiss, hm⟩ | ⟨e, l, heo, hlo, h⟩
  · subst hm
    rcases hmiss with rfl | rfl
    · cases lo <;> rfl
    · cases eo <;> rfl
  · subst heo
    subst hlo
    simp only [get_possible_flights]
    rcases h with ⟨hrn, hm⟩ | ⟨r, hst, h⟩
    · subst hm
      rw [if_pos (by rw [is_router_initialized, hrn]; rfl)]
    · have hinit : is_router_initialized st = true := by
        rw [is_router_initialized, hst]
        rfl
      rw [hinit, if_neg (by simp)]
      rcases h with ⟨ns, hns, hfind, hm⟩ | ⟨ns, nfrom, hns, hfrom, h⟩
      · subst hm
        have hgn : get_node_by_id st.nodes vd.id
            = some (Except.error ("Node not found by id: " ++ vd.id)) :=
          (get_node_by_id_error_iff _ _ _).mpr ⟨ns, hns, hfind, rfl⟩
        rw [hgn]
      · have hgn : get_node_by_id st.nodes vd.id = some (Except.ok nfrom) :=
          (get_node_by_id_ok_iff _ _ _).mpr ⟨ns, hns, hfrom⟩
        rw [hgn]
        dsimp only []
        rcases h with ⟨hfindto, hm⟩ | ⟨nto, hto, h⟩
        · subst hm
          have hga : get_node_by_id st.nodes va.id
              = some (Except.error ("Node not found by id: " ++ va.id)) :=
            (get_node_by_id_error_iff _ _ _).mpr ⟨ns, hns, hfindto, rfl⟩
          rw [hga]
        · have hga : get_node_by_id st.nodes va.id = some (Except.ok nto) :=
            (get_node_by_id_ok_iff _ _ _).mpr ⟨ns, hns, hto⟩
          rw [hga]
          dsimp only []
          obtain ⟨locs, hgr, hiff⟩ := get_route_ok st r hst (hrwf r hst) nfrom nto
          rw [hgr]
          dsimp only []
          rcases h with ⟨hpath, hm⟩ | ⟨hpathne, b, w, env, hb, hw, henv, h⟩
          · subst hm
            rw [if_pos (List.isEmpty_iff.mpr (hiff.mpr hpath))]
          · subst hb
            subst hw
            subst henv
            have hne : ¬(locs.isEmpty = true) := fun hc =>
              hpathne (hiff.mp (List.isEmpty_iff.mp hc))
            rw [if_neg hne]
            rcases h with ⟨hwb, hm⟩ | ⟨hwb, h⟩
            · subst hm
              rw [if_pos hwb]
            · rw [if_neg hwb]
              rcases h with ⟨hm, i, hi, hts, hall⟩ | ⟨hallskip, hm⟩
              · subst hm
                have hloop := (slotLoop_error_iff _ _ _ ([] : List FlightPlanData)).mpr
                  ((slotErrorWitness_range' _ _
                    ((num_flight_options (windowMinutes e l)
                      (estimate_flight_time_minutes
                          (find_shortest_path r nfrom nto Algorithm.Dijkstra none).1
                        + LOADING_AND_TAKEOFF_TIME_MIN + LANDING_AND_UNLOADING_TIME_MIN)).toNat) 0).mpr
                    ⟨rfl, i, Nat.zero_le i, by omega, hts,
                     fun j h1 h2 => hall j h2⟩)
                rw [List.range_eq_range', hloop]
              · subst hm
                have hloop := (slotLoop_nil_iff _ _).mpr
                  ((slotsAllSkip_range' _
                    ((num_flight_options (windowMinutes e l)
                      (estimate_flight_time_minutes
                          (find_shortest_path r nfrom nto Algorithm.Dijkstra none).1
                        + LOADING_AND_TAKEOFF_TIME_MIN + LANDING_AND_UNLOADING_TIME_MIN)).toNat) 0).mpr
                    (fun i h1 h2 => hallskip i (by omega)))
                rw [List.range_eq_range', hloop]
                rfl

/-- C2 (amended): `get_possible_flights` errs exactly on the rungs of its
terminal ladder, checked in order — missing timestamp, uninitialized
router, unrecognized departure then arrival site id, empty route, window
smaller than one block, and then, inside the slot loop, a slot departure
datetime rejected by the timestamp bounds (`Invalid departure_time`, a
terminal error the claim's six-message taxonomy omits), and finally no
plan emitted over all slots.  A per-slot failure of a vertiport or vehicle
availability check only skips the slot (`processSlot` yields `.ok none`
and the loop continues, as the `slotsAllSkip` rung shows).  The seven
message templates are pairwise distinct.  Requires every stored router to
keep its edge targets in bounds, as `Router.new` does. -/
theorem c2_error_taxonomy (parseCal : String → Option Calendar) (st : RState)
    (vd va : Vertiport) (eo lo : Option Timestamp) (vehicles : List Vehicle)
    (plans : List FlightPlan) (m : String)
    (hrwf : ∀ r, st.router = some r → ∀ e ∈ r.gedges, e.2.1 < r.verts.length) :
    (get_possible_flights parseCal st vd va eo lo vehicles plans
        = some (Except.error m)
      ↔ c2Chain parseCal st vd va eo lo vehicles plans m)
    ∧ List.Pairwise (fun a b => a ≠ b) c2Messages :=
  ⟨⟨c2_chain_of_error parseCal st vd va eo lo vehicles plans m,
    c2_error_of_chain parseCal st vd va eo lo vehicles plans m hrwf⟩,
   by decide⟩

/-- Counterexample to C2 as claimed: with the earliest departure carrying
nanos `-1` (`u32` cast `4294967295`, above chrono's `2e9` bound), the call
errs with `Invalid departure_time` — a terminal error whose message is
none of the claim's six (per-slot timestamp failure propagates; it is not
recovered locally by skipping the slot). -/
theorem c2_counterexample_invalid_departure_time :
    get_possible_flights parseTrue st0 vpA vpB (some ⟨0, -1⟩) (some ⟨6300, 0⟩)
        [veh1] [] = some (Except.error "Invalid departure_time")
    ∧ "Invalid departure_time" ∉
        ["Both earliest departure and latest arrival time must be specified",
         "Router not initialized",
         "Node not found by id: A",
         "Node not found by id: B",
         "Route between vertiports not found",
         "Time window too small to schedule flight",
         "No flight plans found (deadhead flights not implemented)"] :=
  ⟨rfl, by decide⟩

/-- Witness for C2: the amended taxonomy applied to a state with no router,
where the well-formedness hypothesis holds vacuously. -/
theorem c2_error_taxonomy_witness :
    (∀ r, (RState.mk none none : RState).router = some r →
        ∀ e ∈ r.gedges, e.2.1 < r.verts.length)
    ∧ ((get_possible_flights parseTrue (RState.mk none none) vpA vpB
          (some (Timestamp.mk 0 0)) (some (Timestamp.mk 6300 0)) [] []
            = some (Except.error "Router not initialized")
        ↔ c2Chain parseTrue (RState.mk none none) vpA vpB
            (some (Timestamp.mk 0 0)) (some (Timestamp.mk 6300 0)) [] []
            "Router not initialized")
      ∧ List.Pairwise (fun a b => a ≠ b) c2Messages) :=
  ⟨fun r hr => Option.noConfusion hr,
   c2_error_taxonomy parseTrue (RState.mk none none) vpA vpB
     (some (Timestamp.mk 0 0)) (some (Timestamp.mk 6300 0)) [] []
     "Router not initialized" (fun r hr => Option.noConfusion hr)⟩
